import Mathlib

/-!
# Verification of the bingo sheet generator

A shallow embedding of `bingosheetgenerator/bingo_generator.py` together with
proofs of the specified properties of its card-generation and page-layout
engine.

Modelling conventions:
* Python's `random.Random` (external standard library) is modelled abstractly:
  an `Rng` is a stream of natural numbers together with a position.  The
  stream is produced by seeding, and every primitive (`sample`, `shuffle`,
  `randint`) consumes the stream deterministically.  `random.sample`'s
  contract (k elements drawn without replacement) is modelled by repeatedly
  removing a stream-selected element from the population; `random.shuffle` is
  modelled as drawing all elements without replacement.
* Python strings used for parsing are modelled as `List Char`; `str.split`,
  `str.strip`, `str.upper` and substring membership (`in`) are given
  executable models below.
* `reportlab` colours are kept as exact integer RGB channel triples
  (`colors.HexColor` keeps exactly these channels; the final division by 255
  performed by the drawing backend is injective and therefore irrelevant to
  every claim).
* Page dimensions are exact rationals: reportlab's `mm` unit is 72/25.4
  points, A4 is 210mm x 297mm and LETTER is 612 x 792 points, all exact.
* The interactive `confirm_or_exit` prompt is modelled by the boolean answers
  `a1` (uneven-pages warning) and `a2` (uneven-segments warning): a prompt
  that is reached passes iff `assume_yes` is set or the corresponding answer
  is `true`; a declined prompt aborts the run (Python `sys.exit(1)`),
  modelled as the non-error result `Except.ok none` / `RunResult.cancelled`.
-/

/-- Abstract pseudo-random source: a deterministic stream of naturals and a
current position.  Models the single `random.Random` instance threaded
through the generator. -/
structure Rng where
  stream : Nat → Nat
  pos : Nat

/-- Draw the next raw value from the stream. -/
def Rng.next (r : Rng) : Nat × Rng := (r.stream r.pos, ⟨r.stream, r.pos + 1⟩)

/-- Model of `random.Random.randint a b`: an integer in `[a, b]` (for
`a ≤ b`), consuming one stream element. -/
def Rng.randint (r : Rng) (a b : Int) : Int × Rng :=
  (a + (r.stream r.pos : Int) % (b - a + 1), ⟨r.stream, r.pos + 1⟩)

/-- Core of the model of `random.sample`: draw `k` elements without
replacement, each one selected from the remaining population by the next
stream value. -/
def sampleAux : Nat → Rng → List Int → List Int × Rng
  | 0, r, _ => ([], r)
  | k + 1, r, pool =>
    if pool.length = 0 then ([], r)
    else
      let i := r.stream r.pos % pool.length
      let rest := sampleAux k ⟨r.stream, r.pos + 1⟩ (pool.eraseIdx i)
      (pool.getD i 0 :: rest.1, rest.2)

/-- Model of `rng.sample(population, k)`: `k` distinct elements of the
population (the generator never calls it with `k` larger than the
population). -/
def sample (r : Rng) (pool : List Int) (k : Nat) : List Int × Rng :=
  sampleAux k r pool

/-- Model of `rng.shuffle(l)`: a permutation of `l` driven by the stream. -/
def shuffle (r : Rng) (l : List Int) : List Int × Rng :=
  sampleAux l.length r l

/-- The ascending list `min_number .. max_number`, i.e. Python's
`list(range(min_number, max_number + 1))`. -/
def intRange (a b : Int) : List Int :=
  (List.range (b - a + 1).toNat).map (fun (n : Nat) => a + (n : Int))

/-- Size of segment number `i` in the near-equal split: `base` plus one extra
for the first `rem` segments (`size = base + (1 if i < remainder else 0)` in
the source). -/
def sizeAt (base rem i : Nat) : Nat := base + (if i < rem then 1 else 0)

/-- Sum of the sizes of `k` consecutive segments starting at index `i`. -/
def sizeSum (base rem : Nat) : Nat → Nat → Nat
  | _, 0 => 0
  | i, k + 1 => sizeAt base rem i + sizeSum base rem (i + 1) k

/-- The slicing loop of `segment_ranges`: segment `i` is
`numbers[idx : idx + size]` and `idx` advances by `size`. -/
def segChunks (nums : List Int) (base rem : Nat) : Nat → Nat → Nat → List (List Int)
  | 0, _, _ => []
  | k + 1, i, idx =>
    (nums.drop idx).take (sizeAt base rem i) ::
      segChunks nums base rem k (i + 1) (idx + sizeAt base rem i)

/-- `segment_ranges(min_number, max_number, parts)` from the source: split
`min..max` into `parts` contiguous slices, the first `total % parts` slices
one element longer. -/
def segment_ranges (min_number max_number : Int) (parts : Nat := 5) : List (List Int) :=
  let numbers := intRange min_number max_number
  segChunks numbers (numbers.length / parts) (numbers.length % parts) parts 0 0

/-- Segment of column `i` (out-of-range columns give the empty list). -/
def segAt (segs : List (List Int)) (i : Nat) : List Int := segs.getD i []

/-- Python's `sorted` on integers (any stable comparison sort; only the
sorted-permutation contract matters). -/
def sortInts (l : List Int) : List Int := l.insertionSort (· ≤ ·)

/-- Rows receiving values in a column: `[0,1,2,3,4]` with row 2 removed for
the centre column (`row_indices.remove(2)` in the source). -/
def rowIndices (col : Nat) : List Nat :=
  if col = 2 then [0, 1, 3, 4] else [0, 1, 2, 3, 4]

/-- Row-major position of cell `(row, col)` among the 24 non-centre cells
(the source increments a counter `i` over all cells, skipping the centre). -/
def cellIdx (row col : Nat) : Nat :=
  5 * row + col - (if 12 < 5 * row + col then 1 else 0)

/-- A bingo card: a 5x5 matrix of optional integers, as a total function on
(row, col); cells outside the grid are `none`. -/
def Card := Nat → Nat → Option Int

/-- The column loop of the segmented branch of `generate_card`: for each
column in order, draw `need` values (4 for the centre column, 5 otherwise)
from that column's segment and sort them ascending. -/
def segColumns (rng : Rng) (segments : List (List Int)) : List (List Int) × Rng :=
  let p0 := sample rng (segAt segments 0) 5
  let p1 := sample p0.2 (segAt segments 1) 5
  let p2 := sample p1.2 (segAt segments 2) 4
  let p3 := sample p2.2 (segAt segments 3) 5
  let p4 := sample p3.2 (segAt segments 4) 5
  ([sortInts p0.1, sortInts p1.1, sortInts p2.1, sortInts p3.1, sortInts p4.1], p4.2)

/-- The fully-random branch of `generate_card`: 24 distinct values from the
whole pool, then shuffled. -/
def randomCells (rng : Rng) (min_number max_number : Int) : List Int × Rng :=
  let pool := intRange min_number max_number
  let p := sample rng pool 24
  shuffle p.2 p.1

/-- `generate_card` from the source.  Segmented: per column draw 4 (centre
column) or 5 values from that column's segment, sort ascending and place
top-to-bottom on the rows of `rowIndices`.  Fully-random: draw 24 distinct
values from the whole pool, shuffle, place row-major skipping the centre. -/
def generate_card (rng : Rng) (min_number max_number : Int) (distribution : String)
    (segments : List (List Int)) : Card × Rng :=
  if distribution = "segmented" then
    let pc := segColumns rng segments
    (fun row col => List.lookup row ((rowIndices col).zip (pc.1.getD col [])), pc.2)
  else
    let q := randomCells rng min_number max_number
    (fun row col =>
      if row = 2 ∧ col = 2 then none
      else if row < 5 ∧ col < 5 then q.1.get? (cellIdx row col)
      else none, q.2)

/-- Ceiling division `math.ceil(a / b)` on positive naturals. -/
def ceilDiv (a b : Nat) : Nat := (a + b - 1) / b

/-- Score of a candidate column count: the smaller of the per-card width and
height, `min(page_w / cols, page_h / rows)` with `rows = ceil(spp / cols)`. -/
def scoreOf (spp : Nat) (w h : ℚ) (c : Nat) : ℚ :=
  min (w / (c : ℚ)) (h / (ceilDiv spp c : ℚ))

/-- The candidate loop of `choose_grid`: try `cols = lo, lo+1, ...` for
`fuel` steps, keeping the best `(cols, rows, score)`; a new candidate wins
only on a strictly greater score (`if score > best_score`). -/
def gridLoop (spp : Nat) (w h : ℚ) : Nat → Nat → Nat × Nat × ℚ → Nat × Nat × ℚ
  | _, 0, best => best
  | lo, fuel + 1, best =>
    let rows := (spp + lo - 1) / lo
    let score := min (w / (lo : ℚ)) (h / (rows : ℚ))
    let best' := if best.2.2 < score then (lo, rows, score) else best
    gridLoop spp w h (lo + 1) fuel best'

/-- `choose_grid(sheets_per_page, page_w, page_h)` from the source: best
`(columns, rows)` over candidates `1 .. sheets_per_page`, initial best
`(1, sheets_per_page, -1.0)`. -/
def choose_grid (spp : Nat) (w h : ℚ) : Nat × Nat :=
  let out := gridLoop spp w h 1 spp (1, spp, -1)
  (out.1, out.2.1)

/-- The five header letters, Python's `LETTERS = "BINGO"`. -/
def LETTERS : List Char := "BINGO".data

/-- The column letters as strings, for the per-column validation messages. -/
def LETTERS_S : List String := ["B", "I", "N", "G", "O"]

/-- Python `s.split(sep)` for a single-character separator (an empty input
gives `[""]`, like Python). -/
def splitChar (sep : Char) : List Char → List (List Char)
  | [] => [[]]
  | c :: cs =>
    match splitChar sep cs with
    | [] => [[]]
    | cur :: rest => if c = sep then [] :: cur :: rest else (c :: cur) :: rest

/-- Python `s.split(sep, 1)`: split at the first occurrence of `sep`;
`none` when `sep` does not occur. -/
def splitFirst (sep : Char) : List Char → Option (List Char × List Char)
  | [] => none
  | c :: cs =>
    if c = sep then some ([], cs)
    else (splitFirst sep cs).map (fun p => (c :: p.1, p.2))

/-- Python `s.strip()`: drop whitespace from both ends. -/
def stripChars (cs : List Char) : List Char :=
  ((cs.dropWhile Char.isWhitespace).reverse.dropWhile Char.isWhitespace).reverse

/-- Python `s.strip().upper()` as applied to a colour key. -/
def stripUpper (cs : List Char) : List Char :=
  (stripChars cs).map Char.toUpper

/-- Boolean prefix test on character lists. -/
def prefB : List Char → List Char → Bool
  | [], _ => true
  | _ :: _, [] => false
  | a :: as, b :: bs => if a = b then prefB as bs else false

/-- Python's substring containment `needle in haystack` (an empty needle is
contained in everything). -/
def substringB (needle : List Char) : List Char → Bool
  | [] => prefB needle []
  | c :: rest => prefB needle (c :: rest) || substringB needle rest

/-- An RGB colour with exact integer channels in `0..255`. -/
def ColorV := Nat × Nat × Nat

deriving instance DecidableEq for ColorV

/-- `colors.black`. -/
def blackColor : ColorV := (0, 0, 0)

/-- Is the character a hexadecimal digit (the character class
`[0-9A-Fa-f]`)? -/
def isHexDigitB (ch : Char) : Bool :=
  if ('0' ≤ ch ∧ ch ≤ '9') ∨ ('A' ≤ ch ∧ ch ≤ 'F') ∨ ('a' ≤ ch ∧ ch ≤ 'f') then true
  else false

/-- Value of a hexadecimal digit. -/
def hexVal (ch : Char) : Nat :=
  if '0' ≤ ch ∧ ch ≤ '9' then ch.toNat - '0'.toNat
  else if 'A' ≤ ch ∧ ch ≤ 'F' then ch.toNat - 'A'.toNat + 10
  else ch.toNat - 'a'.toNat + 10

/-- `parse_hex_color` from the source: strict `#RRGGBB` validation
(`re.fullmatch(r"#[0-9A-Fa-f]{6}", value)`), then the exact channel values
of `colors.HexColor`. -/
def parse_hex_color (value : List Char) : Except (List Char) ColorV :=
  match value with
  | c :: rest =>
    if c = '#' ∧ rest.length = 6 ∧ rest.all isHexDigitB then
      Except.ok
        (16 * hexVal (rest.getD 0 ' ') + hexVal (rest.getD 1 ' '),
         16 * hexVal (rest.getD 2 ' ') + hexVal (rest.getD 3 ' '),
         16 * hexVal (rest.getD 4 ' ') + hexVal (rest.getD 5 ' '))
    else Except.error ("Invalid color '".data ++ value ++ "', expected #RRGGBB".data)
  | [] => Except.error ("Invalid color '".data ++ value ++ "', expected #RRGGBB".data)

/-- Python dict insertion `result[letter] = color`: replace an existing
binding in place, else append. -/
def dinsert : List (List Char × ColorV) → List Char → ColorV → List (List Char × ColorV)
  | [], k, v => [(k, v)]
  | (k', v') :: rest, k, v =>
    if k' = k then (k', v) :: rest else (k', v') :: dinsert rest k v

/-- Python dict lookup `result[k]` / `k in result`. -/
def dlookup : List (List Char × ColorV) → List Char → Option ColorV
  | [], _ => none
  | (k', v) :: rest, k => if k' = k then some v else dlookup rest k

/-- The per-entry loop of `parse_custom_letter_colors`: each comma-separated
item must contain `:`; the key is stripped and upper-cased and must pass
Python's substring test `letter in LETTERS`; the colour is stripped and must
parse as `#RRGGBB`. -/
def parseColorItems : List (List Char) → List (List Char × ColorV) →
    Except (List Char) (List (List Char × ColorV))
  | [], acc => Except.ok acc
  | item :: rest, acc =>
    match splitFirst ':' item with
    | none =>
      Except.error ("Invalid custom color entry '".data ++ item ++ "', expected KEY:#RRGGBB".data)
    | some (keyPart, colorPart) =>
      let letter := stripUpper keyPart
      if substringB letter LETTERS = false then
        Except.error ("Invalid letter '".data ++ letter ++ "', allowed letters are B,I,N,G,O".data)
      else
        match parse_hex_color (stripChars colorPart) with
        | Except.error e => Except.error e
        | Except.ok cv => parseColorItems rest (dinsert acc letter cv)

/-- `parse_custom_letter_colors` from the source: parse the comma-separated
spec, then require every one of the five letters to be present. -/
def parse_custom_letter_colors (spec : Option (List Char)) :
    Except (List Char) (List (List Char × ColorV)) :=
  match spec with
  | none => Except.error "--custom-letter-colors is required when --letter-color-mode custom".data
  | some s =>
    if s = [] then
      Except.error "--custom-letter-colors is required when --letter-color-mode custom".data
    else
      match parseColorItems (splitChar ',' s) [] with
      | Except.error e => Except.error e
      | Except.ok m =>
        let missing := LETTERS.filter (fun ch => (dlookup m [ch]).isNone)
        if missing.isEmpty then Except.ok m
        else
          Except.error ("Missing custom colors for: ".data ++
            List.intercalate ", ".data (missing.map (fun ch => [ch])))

/-- `PRESET_COLORFUL` from the source, as raw hex specs. -/
def PRESET_COLORFUL : List (List Char × List Char) :=
  [("B".data, "#1F77B4".data), ("I".data, "#D62728".data), ("N".data, "#2CA02C".data),
   ("G".data, "#FFBF00".data), ("O".data, "#9467BD".data)]

/-- The per-letter loop of `random_letter_colors`: three `randint(40, 220)`
channel draws per letter (channels kept as exact ints). -/
def randColorLoop : List (List Char) → Rng → List (List Char × ColorV) × Rng
  | [], r => ([], r)
  | l :: ls, r =>
    let n1 := r.randint 40 220
    let n2 := n1.2.randint 40 220
    let n3 := n2.2.randint 40 220
    let rest := randColorLoop ls n3.2
    ((l, (n1.1.toNat, n2.1.toNat, n3.1.toNat)) :: rest.1, rest.2)

/-- `random_letter_colors(rng)` from the source. -/
def random_letter_colors (r : Rng) : List (List Char × ColorV) × Rng :=
  randColorLoop (LETTERS.map (fun ch => [ch])) r

/-- The `Config` dataclass from the source. -/
structure Config where
  output : String
  sheets : Int
  sheets_per_page : Int
  paper_size : String
  min_number : Int
  max_number : Int
  distribution : String
  letter_color_mode : String
  custom_letter_colors : Option (List Char)
  seed : Option Int
  assume_yes : Bool

/-- The per-column requirement table `required_per_col = [5, 5, 4, 5, 5]`. -/
def required_per_col : List Nat := [5, 5, 4, 5, 5]

/-- The per-column loop of `validate_config`: raise on the first column whose
segment is smaller than its requirement. -/
def checkColumns : List String → List (List Int) → List Nat → Except String Unit
  | l :: ls, b :: bs, n :: ns =>
    if b.length < n then
      Except.error ("Not enough numbers in column " ++ l ++ " range: need " ++
        toString n ++ ", got " ++ toString b.length)
    else checkColumns ls bs ns
  | _, _, _ => Except.ok ()

/-- Python's `len(set(lengths)) == 1` for the (always non-empty) list of
segment lengths: all lengths equal the first one. -/
def allEqualLengths (segs : List (List Int)) : Bool :=
  (segs.map List.length).all (fun n => n = (segs.map List.length).headD 0)

/-- `validate_config` from the source.  `Except.error` is a raised
`ValueError` (fatal); `Except.ok none` is a user-declined warning
(`sys.exit(1)` inside `confirm_or_exit`); `Except.ok (some segs)` is
success.  `a1` and `a2` are the interactive answers to the uneven-pages and
uneven-segments prompts; a prompt passes iff `assume_yes` or its answer is
`true`. -/
def validate_config (c : Config) (a1 a2 : Bool) : Except String (Option (List (List Int))) :=
  if c.sheets ≤ 0 then Except.error "--sheets must be greater than 0"
  else if c.sheets_per_page ≤ 0 then Except.error "--sheets-per-page must be greater than 0"
  else if c.max_number < c.min_number then Except.error "--max-number must be >= --min-number"
  else if c.max_number - c.min_number + 1 < 24 then
    Except.error "Number range must include at least 24 values for a 5x5 card with free center"
  else if c.sheets % c.sheets_per_page ≠ 0 ∧ ¬(c.assume_yes = true ∨ a1 = true) then
    Except.ok none
  else if c.distribution = "segmented" then
    if allEqualLengths (segment_ranges c.min_number c.max_number 5) = false ∧
        ¬(c.assume_yes = true ∨ a2 = true) then
      Except.ok none
    else
      match checkColumns LETTERS_S (segment_ranges c.min_number c.max_number 5)
          required_per_col with
      | Except.error e => Except.error e
      | Except.ok _ => Except.ok (some (segment_ranges c.min_number c.max_number 5))
  else Except.ok (some [])

/-- The disjunction of the fatal (`ValueError`) conditions of
`validate_config`. -/
def fatalConds (c : Config) : Prop :=
  c.sheets ≤ 0 ∨ c.sheets_per_page ≤ 0 ∨ c.max_number < c.min_number ∨
    c.max_number - c.min_number + 1 < 24 ∨
    (c.distribution = "segmented" ∧
      ∃ i, i < 5 ∧
        (segAt (segment_ranges c.min_number c.max_number 5) i).length <
          required_per_col.getD i 0)

/-- reportlab's `mm` unit in points (72 points per inch, 25.4 mm per inch),
exactly. -/
def mmQ : ℚ := 720 / 254

/-- Page dimensions in points: A4 is 210mm x 297mm, LETTER is 612 x 792. -/
def paperDims (ps : String) : ℚ × ℚ :=
  if ps = "a4" then (210 * mmQ, 297 * mmQ) else (612, 792)

/-- The per-sheet loop of `generate_pdf`: one card per sheet, all drawn from
the single shared rng. -/
def drawCards (min_number max_number : Int) (distribution : String)
    (segs : List (List Int)) : Nat → Rng → List Card × Rng
  | 0, r => ([], r)
  | n + 1, r =>
    let p := generate_card r min_number max_number distribution segs
    let rest := drawCards min_number max_number distribution segs n p.2
    (p.1 :: rest.1, rest.2)

/-- Observable actions on the canvas / output file resource. -/
inductive PdfEvent where
  | openCanvas (path : String)
  | drawCard (card : Card)
  | save

/-- Outcome of a `generate_pdf` run: a raised `ValueError`, a user
cancellation (`sys.exit(1)` from a declined warning), or success with the
resolved letter colours, the page grid plan and the sampled cards. -/
inductive RunResult where
  | fatal (msg : String)
  | cancelled
  | done (letterColors : List (List Char × ColorV)) (grid : Nat × Nat) (cards : List Card)

/-- `generate_pdf` from the source, as a function from the seeded rng
implementation, the configuration and the prompt answers to the run outcome
and the trace of canvas events.  Faithful ordering: seed the rng once,
resolve letter colours (consuming the rng in `random` mode), validate, and
only then open the canvas, compute the grid and draw the cards. -/
def generate_pdf (impl : Option Int → Nat → Nat) (c : Config) (a1 a2 : Bool) :
    RunResult × List PdfEvent :=
  let rng : Rng := ⟨impl c.seed, 0⟩
  let dims := paperDims c.paper_size
  let colorsRes : Except String (List (List Char × ColorV) × Rng) :=
    if c.letter_color_mode = "black" then
      Except.ok (LETTERS.map (fun ch => ([ch], blackColor)), rng)
    else if c.letter_color_mode = "random" then
      let preset := PRESET_COLORFUL.map (fun p => (p.1, (parse_hex_color p.2).toOption.getD (0, 0, 0)))
      let rand := random_letter_colors rng
      Except.ok (rand.1.foldl (fun m p => dinsert m p.1 p.2) preset, rand.2)
    else
      match parse_custom_letter_colors c.custom_letter_colors with
      | Except.error e => Except.error (String.mk e)
      | Except.ok m => Except.ok (m, rng)
  match colorsRes with
  | Except.error e => (RunResult.fatal e, [])
  | Except.ok (letterColors, rng1) =>
    match validate_config c a1 a2 with
    | Except.error e => (RunResult.fatal e, [])
    | Except.ok none => (RunResult.cancelled, [])
    | Except.ok (some segments) =>
      let grid := choose_grid c.sheets_per_page.toNat dims.1 dims.2
      let cards := drawCards c.min_number c.max_number c.distribution segments c.sheets.toNat rng1
      (RunResult.done letterColors grid cards.1,
        PdfEvent.openCanvas c.output :: (cards.1.map PdfEvent.drawCard) ++ [PdfEvent.save])

/-- The process exit status of `main`: a raised `ValueError` is caught and
returns 2; a declined warning propagates `SystemExit(1)` so the process
exits 1; success returns 0. -/
def main_exit (impl : Option Int → Nat → Nat) (c : Config) (a1 a2 : Bool) : Int :=
  match (generate_pdf impl c a1 a2).1 with
  | RunResult.fatal _ => 2
  | RunResult.cancelled => 1
  | RunResult.done _ _ _ => 0

/-- Rows receiving values in a column with the free-centre toggle: row 2 is
skipped in the centre column only when the free centre is enabled. -/
def rowIndicesFC (fc : Bool) (col : Nat) : List Nat :=
  if fc = true ∧ col = 2 then [0, 1, 3, 4] else [0, 1, 2, 3, 4]

/-- Row-major position of cell `(row, col)` when the free-centre toggle is
`fc`: the centre is only skipped when `fc` is set. -/
def cellIdxFC (fc : Bool) (row col : Nat) : Nat :=
  5 * row + col - (if fc = true ∧ 12 < 5 * row + col then 1 else 0)

/-- Modelled from the spec: the free-centre toggle (`free_center_enabled` in
the spec's Configuration, passed as `free_center` by `src/bingo_gui.py`) is
not present in the generator file under `src/`, whose centre cell is always
free.  Per the spec, when the toggle is enabled exactly the centre cell holds
no number (the segmented centre column draws 4 values on rows 0,1,3,4 and the
fully-random card draws 24 values skipping the centre); when disabled every
cell holds a number (the centre column draws 5 values and the fully-random
card draws 25 values placed row-major over all cells). -/
def segColumnsFC (fc : Bool) (rng : Rng) (segments : List (List Int)) :
    List (List Int) × Rng :=
  let p0 := sample rng (segAt segments 0) 5
  let p1 := sample p0.2 (segAt segments 1) 5
  let p2 := sample p1.2 (segAt segments 2) (if fc = true then 4 else 5)
  let p3 := sample p2.2 (segAt segments 3) 5
  let p4 := sample p3.2 (segAt segments 4) 5
  ([sortInts p0.1, sortInts p1.1, sortInts p2.1, sortInts p3.1, sortInts p4.1], p4.2)

/-- Modelled from the spec (see `segColumnsFC`): the fully-random draw with
the free-centre toggle: 24 values when the centre is free, 25 when not. -/
def randomCellsFC (fc : Bool) (rng : Rng) (min_number max_number : Int) :
    List Int × Rng :=
  let pool := intRange min_number max_number
  let p := sample rng pool (if fc = true then 24 else 25)
  shuffle p.2 p.1

/-- Modelled from the spec (see `segColumnsFC`): `generate_card` with the
free-centre toggle; at `fc = true` this is exactly `generate_card`. -/
def generate_card_fc (fc : Bool) (rng : Rng) (min_number max_number : Int)
    (distribution : String) (segments : List (List Int)) : Card × Rng :=
  if distribution = "segmented" then
    let pc := segColumnsFC fc rng segments
    (fun row col => List.lookup row ((rowIndicesFC fc col).zip (pc.1.getD col [])), pc.2)
  else
    let q := randomCellsFC fc rng min_number max_number
    (fun row col =>
      if fc = true ∧ row = 2 ∧ col = 2 then none
      else if row < 5 ∧ col < 5 then q.1.get? (cellIdxFC fc row col)
      else none, q.2)

/-! ## Basic properties of the number pool -/

theorem length_intRange (a b : Int) : (intRange a b).length = (b - a + 1).toNat := by
  rw [intRange, List.length_map, List.length_range]

theorem mem_intRange {a b x : Int} : x ∈ intRange a b ↔ a ≤ x ∧ x ≤ b := by
  simp only [intRange, List.mem_map, List.mem_range]
  constructor
  · rintro ⟨i, hi, rfl⟩
    omega
  · rintro ⟨h1, h2⟩
    exact ⟨(x - a).toNat, by omega, by omega⟩

theorem pairwise_lt_intRange (a b : Int) : (intRange a b).Pairwise (· < ·) := by
  rw [intRange, List.pairwise_map]
  refine (List.pairwise_lt_range _).imp ?_
  intro i j h
  omega

theorem nodup_intRange (a b : Int) : (intRange a b).Nodup :=
  (pairwise_lt_intRange a b).imp (fun h => ne_of_lt h)

/-! ## Properties of the sampling model -/

theorem sampleAux_length {k : Nat} {r : Rng} {pool : List Int}
    (h : k ≤ pool.length) : (sampleAux k r pool).1.length = k := by
  induction k generalizing r pool with
  | zero => simp [sampleAux]
  | succ k ih =>
    have hpos : ¬ pool.length = 0 := by omega
    have hi : r.stream r.pos % pool.length < pool.length :=
      Nat.mod_lt _ (by omega)
    simp only [sampleAux, hpos, if_false, List.length_cons]
    rw [ih]
    rw [List.length_eraseIdx_of_lt hi]
    omega

theorem sampleAux_subset {k : Nat} {r : Rng} {pool : List Int} :
    ∀ x ∈ (sampleAux k r pool).1, x ∈ pool := by
  induction k generalizing r pool with
  | zero => simp [sampleAux]
  | succ k ih =>
    intro x hx
    by_cases hpos : pool.length = 0
    · simp [sampleAux, hpos] at hx
    · have hi : r.stream r.pos % pool.length < pool.length :=
        Nat.mod_lt _ (by omega)
      simp only [sampleAux, hpos, if_false, List.mem_cons] at hx
      rcases hx with rfl | hx
      · rw [List.getD_eq_getElem?_getD, List.getElem?_eq_getElem hi]
        exact List.getElem_mem hi
      · exact (List.eraseIdx_sublist pool _).subset (ih x hx)

theorem sampleAux_nodup {k : Nat} {r : Rng} {pool : List Int}
    (h : pool.Nodup) : (sampleAux k r pool).1.Nodup := by
  induction k generalizing r pool with
  | zero => simp [sampleAux]
  | succ k ih =>
    by_cases hpos : pool.length = 0
    · simp [sampleAux, hpos]
    · have hi : r.stream r.pos % pool.length < pool.length :=
        Nat.mod_lt _ (by omega)
      simp only [sampleAux, hpos, if_false, List.nodup_cons]
      refine ⟨?_, ih ((List.eraseIdx_sublist pool _).nodup h)⟩
      intro hmem
      have hmem2 : pool.getD (r.stream r.pos % pool.length) 0 ∈
          pool.eraseIdx (r.stream r.pos % pool.length) :=
        sampleAux_subset _ hmem
      rw [List.mem_eraseIdx_iff_getElem] at hmem2
      obtain ⟨j, hj, hne, hget⟩ := hmem2
      rw [List.getD_eq_getElem?_getD, List.getElem?_eq_getElem hi] at hget
      exact hne (h.getElem_inj_iff.mp hget)

/-! ## Sorting and column placement helpers -/

theorem sortInts_perm (l : List Int) : (sortInts l).Perm l :=
  List.perm_insertionSort _ l

theorem sortInts_length (l : List Int) : (sortInts l).length = l.length :=
  (sortInts_perm l).length_eq

theorem sortInts_subset {l : List Int} : ∀ x ∈ sortInts l, x ∈ l :=
  fun _ hx => (sortInts_perm l).mem_iff.mp hx

theorem sortInts_pairwise_lt {l : List Int} (h : l.Nodup) :
    (sortInts l).Pairwise (· < ·) :=
  (List.sorted_insertionSort _ l).lt_of_le (((sortInts_perm l).symm).nodup h)

theorem lookup_zip_key_mem {rows : List Nat} {vals : List Int} {r : Nat} {v : Int}
    (h : List.lookup r (rows.zip vals) = some v) : r ∈ rows := by
  induction rows generalizing vals with
  | nil => simp [List.lookup] at h
  | cons r0 rows ih =>
    cases vals with
    | nil => simp [List.lookup] at h
    | cons v0 vals =>
      simp only [List.zip_cons_cons, List.lookup] at h
      by_cases hr : r = r0
      · exact hr ▸ List.mem_cons_self _ _
      · rw [beq_false_of_ne hr] at h
        exact List.mem_cons_of_mem _ (ih h)

theorem lookup_zip_val_mem {rows : List Nat} {vals : List Int} {r : Nat} {v : Int}
    (h : List.lookup r (rows.zip vals) = some v) : v ∈ vals := by
  induction rows generalizing vals with
  | nil => simp [List.lookup] at h
  | cons r0 rows ih =>
    cases vals with
    | nil => simp [List.lookup] at h
    | cons v0 vals =>
      simp only [List.zip_cons_cons, List.lookup] at h
      by_cases hr : r = r0
      · rw [hr, beq_self_eq_true] at h
        simp only [Option.some.injEq] at h
        exact h ▸ List.mem_cons_self _ _
      · rw [beq_false_of_ne hr] at h
        exact List.mem_cons_of_mem _ (ih h)

theorem lookup_zip_isSome {rows : List Nat} {vals : List Int} {r : Nat}
    (hlen : rows.length = vals.length) (hr : r ∈ rows) :
    ∃ v, List.lookup r (rows.zip vals) = some v := by
  induction rows generalizing vals with
  | nil => simp at hr
  | cons r0 rows ih =>
    cases vals with
    | nil => simp at hlen
    | cons v0 vals =>
      simp only [List.zip_cons_cons, List.lookup]
      by_cases hcase : r = r0
      · rw [hcase, beq_self_eq_true]
        exact ⟨v0, rfl⟩
      · rw [beq_false_of_ne hcase]
        rcases List.mem_cons.mp hr with h1 | h1
        · exact absurd h1 hcase
        · exact ih (by simpa using hlen) h1

theorem lookup_zip_not_mem {rows : List Nat} {vals : List Int} {r : Nat}
    (hr : r ∉ rows) : List.lookup r (rows.zip vals) = none := by
  induction rows generalizing vals with
  | nil => simp [List.lookup]
  | cons r0 rows ih =>
    cases vals with
    | nil => simp [List.lookup]
    | cons v0 vals =>
      simp only [List.zip_cons_cons, List.lookup]
      rw [beq_false_of_ne (by simp at hr; exact hr.1)]
      exact ih (by simp at hr; exact hr.2)

theorem lookup_zip_mono {rows : List Nat} {vals : List Int}
    (hrows : rows.Pairwise (· < ·)) (hvals : vals.Pairwise (· < ·)) :
    ∀ {r r' : Nat} {v v' : Int}, r < r' →
      List.lookup r (rows.zip vals) = some v →
      List.lookup r' (rows.zip vals) = some v' → v < v' := by
  induction rows generalizing vals with
  | nil => intro r r' v v' _ h; simp [List.lookup] at h
  | cons r0 rows ih =>
    cases vals with
    | nil => intro r r' v v' _ h; simp [List.lookup] at h
    | cons v0 vals =>
      intro r r' v v' hlt h h'
      simp only [List.zip_cons_cons, List.lookup] at h h'
      rcases List.pairwise_cons.mp hrows with ⟨hr0, hrows'⟩
      rcases List.pairwise_cons.mp hvals with ⟨hv0, hvals'⟩
      by_cases hc : r = r0
      · rw [hc, beq_self_eq_true] at h
        simp only [Option.some.injEq] at h
        have hr' : ¬ (r' = r0) := by omega
        rw [beq_false_of_ne hr'] at h'
        exact h ▸ hv0 v' (lookup_zip_val_mem h')
      · rw [beq_false_of_ne hc] at h
        have : r0 < r := hr0 r (lookup_zip_key_mem h)
        have hr' : ¬ (r' = r0) := by omega
        rw [beq_false_of_ne hr'] at h'
        exact ih hrows' hvals' hlt h h'

/-! ## Structure of the segmented split -/

theorem segChunks_length (nums : List Int) (b r : Nat) :
    ∀ k i idx, (segChunks nums b r k i idx).length = k := by
  intro k
  induction k with
  | zero => intro i idx; rfl
  | succ k ih => intro i idx; simp [segChunks, ih]

theorem segChunks_flatten (nums : List Int) (b r : Nat) :
    ∀ k i idx, (segChunks nums b r k i idx).flatten =
      (nums.drop idx).take (sizeSum b r i k) := by
  intro k
  induction k with
  | zero => intro i idx; simp [segChunks, sizeSum]
  | succ k ih =>
    intro i idx
    simp only [segChunks, List.flatten_cons, ih, sizeSum]
    rw [List.take_add, List.drop_drop]

theorem segChunks_getD (nums : List Int) (b r : Nat) :
    ∀ k j i idx, j < k → segAt (segChunks nums b r k i idx) j =
      (nums.drop (idx + sizeSum b r i j)).take (sizeAt b r (i + j)) := by
  intro k
  induction k with
  | zero => intro j i idx hj; omega
  | succ k ih =>
    intro j i idx hj
    cases j with
    | zero => simp [segChunks, segAt, sizeSum]
    | succ j =>
      have := ih j (i + 1) (idx + sizeAt b r i) (by omega)
      simp only [segChunks, segAt, List.getD_cons_succ] at this ⊢
      rw [this, sizeSum]
      have h1 : idx + sizeAt b r i + sizeSum b r (i + 1) j =
          idx + (sizeAt b r i + sizeSum b r (i + 1) j) := by omega
      have h2 : i + 1 + j = i + (j + 1) := by omega
      rw [h1, h2]

theorem sizeSum_five (b r : Nat) (h : r < 5) : sizeSum b r 0 5 = 5 * b + r := by
  simp only [sizeSum, sizeAt]
  split_ifs <;> omega

theorem sizeSum_prefix_le (b r : Nat) (hr : r < 5) :
    ∀ j, j < 5 → sizeSum b r 0 j + sizeAt b r j ≤ 5 * b + r := by
  intro j hj
  interval_cases j <;> simp only [sizeSum, sizeAt] <;> split_ifs <;> omega

theorem segment_ranges_length (mn mx : Int) : (segment_ranges mn mx 5).length = 5 :=
  segChunks_length _ _ _ 5 0 0

theorem segment_ranges_flatten (mn mx : Int) :
    (segment_ranges mn mx 5).flatten = intRange mn mx := by
  rw [segment_ranges, segChunks_flatten, sizeSum_five _ _ (Nat.mod_lt _ (by omega)),
    List.drop_zero]
  have : 5 * ((intRange mn mx).length / 5) + (intRange mn mx).length % 5 =
      (intRange mn mx).length := Nat.div_add_mod _ 5
  rw [this, List.take_length]

theorem segment_ranges_lengths (mn mx : Int) :
    ∀ i, i < 5 → (segAt (segment_ranges mn mx 5) i).length =
      sizeAt ((intRange mn mx).length / 5) ((intRange mn mx).length % 5) i := by
  intro i hi
  have hr : (intRange mn mx).length % 5 < 5 := Nat.mod_lt _ (by omega)
  rw [segment_ranges, segChunks_getD _ _ _ 5 i 0 0 hi]
  simp only [Nat.zero_add]
  rw [List.length_take, List.length_drop]
  have := sizeSum_prefix_le ((intRange mn mx).length / 5) ((intRange mn mx).length % 5) hr i hi
  have htot : 5 * ((intRange mn mx).length / 5) + (intRange mn mx).length % 5 =
      (intRange mn mx).length := Nat.div_add_mod _ 5
  omega

theorem segment_ranges_sublist (mn mx : Int) :
    ∀ i, i < 5 → (segAt (segment_ranges mn mx 5) i).Sublist (intRange mn mx) := by
  intro i hi
  rw [segment_ranges, segChunks_getD _ _ _ 5 i 0 0 hi]
  exact (List.take_sublist _ _).trans (List.drop_sublist _ _)

theorem segAt_eq_get (segs : List (List Int)) (i : Nat) (h : i < segs.length) :
    segAt segs i = segs.get ⟨i, h⟩ := by
  rw [segAt, List.getD_eq_getElem?_getD, List.getElem?_eq_getElem h]
  rfl

theorem segment_ranges_cross (mn mx : Int) :
    ∀ i j, i < j → j < 5 →
      ∀ x ∈ segAt (segment_ranges mn mx 5) i,
        ∀ y ∈ segAt (segment_ranges mn mx 5) j, x < y := by
  intro i j hij hj x hx y hy
  have hp : ((segment_ranges mn mx 5).flatten).Pairwise (· < ·) := by
    rw [segment_ranges_flatten]
    exact pairwise_lt_intRange mn mx
  have hcross := (List.pairwise_flatten.mp hp).2
  rw [List.pairwise_iff_getElem] at hcross
  have hlen : (segment_ranges mn mx 5).length = 5 := segment_ranges_length mn mx
  have hi5 : i < (segment_ranges mn mx 5).length := by omega
  have hj5 : j < (segment_ranges mn mx 5).length := by omega
  have := hcross i j hi5 hj5 hij
  rw [segAt_eq_get _ _ hi5] at hx
  rw [segAt_eq_get _ _ hj5] at hy
  simp only [List.get_eq_getElem] at hx hy
  exact this x hx y hy

theorem segment_ranges_nodup (mn mx : Int) :
    ∀ i, i < 5 → (segAt (segment_ranges mn mx 5) i).Nodup :=
  fun i hi => (segment_ranges_sublist mn mx i hi).nodup (nodup_intRange mn mx)

theorem segment_ranges_mem_range (mn mx : Int) :
    ∀ i, i < 5 → ∀ x ∈ segAt (segment_ranges mn mx 5) i, mn ≤ x ∧ x ≤ mx :=
  fun i hi x hx => mem_intRange.mp ((segment_ranges_sublist mn mx i hi).subset hx)

/-! ## C2: the segmented split -/

/-- C2: for every `min_number ≤ max_number`, `segment_ranges` returns exactly
5 contiguous, non-overlapping, ascending slices whose concatenation is the
sequence `min_number..max_number`; the segment lengths sum to the pool size,
differ pairwise by at most 1, and exactly the first `pool_size mod 5`
segments have one extra element (`base + 1` instead of `base`). -/
theorem segment_ranges_spec (mn mx : Int) (h : mn ≤ mx) :
    ∀ segs, segs = segment_ranges mn mx 5 →
      segs.length = 5 ∧
      segs.flatten = intRange mn mx ∧
      segs.flatten.Pairwise (· < ·) ∧
      (segs.map List.length).sum = (mx - mn + 1).toNat ∧
      (∀ i, i < 5 → (segAt segs i).length =
        (mx - mn + 1).toNat / 5 + (if i < (mx - mn + 1).toNat % 5 then 1 else 0)) ∧
      (∀ i j, i < 5 → j < 5 → (segAt segs i).length ≤ (segAt segs j).length + 1) := by
  intro segs hsegs
  subst hsegs
  have hlens : ∀ i, i < 5 → (segAt (segment_ranges mn mx 5) i).length =
      (mx - mn + 1).toNat / 5 + (if i < (mx - mn + 1).toNat % 5 then 1 else 0) := by
    intro i hi
    rw [segment_ranges_lengths mn mx i hi, sizeAt, length_intRange]
  refine ⟨segment_ranges_length mn mx, segment_ranges_flatten mn mx, ?_, ?_, hlens, ?_⟩
  · rw [segment_ranges_flatten]
    exact pairwise_lt_intRange mn mx
  · rw [← List.length_flatten, segment_ranges_flatten, length_intRange]
  · intro i j hi hj
    rw [hlens i hi, hlens j hj]
    split_ifs <;> omega

theorem segment_ranges_spec_witness :
    (1 : Int) ≤ 75 ∧
      ((segment_ranges 1 75 5).length = 5 ∧
        (segment_ranges 1 75 5).flatten = intRange 1 75 ∧
        (segment_ranges 1 75 5).flatten.Pairwise (· < ·) ∧
        ((segment_ranges 1 75 5).map List.length).sum = ((75 : Int) - 1 + 1).toNat ∧
        (∀ i, i < 5 → (segAt (segment_ranges 1 75 5) i).length =
          ((75 : Int) - 1 + 1).toNat / 5 +
            (if i < ((75 : Int) - 1 + 1).toNat % 5 then 1 else 0)) ∧
        (∀ i j, i < 5 → j < 5 →
          (segAt (segment_ranges 1 75 5) i).length ≤
            (segAt (segment_ranges 1 75 5) j).length + 1)) :=
  ⟨by norm_num, segment_ranges_spec 1 75 (by norm_num) _ rfl⟩

/-! ## C3: the page grid choice -/

/-- Loop invariant of `gridLoop`: `best` is the first maximum of `scoreOf`
over the candidates `1 .. lo - 1` already visited. -/
def GoodBest (spp : Nat) (w h : ℚ) (lo : Nat) (best : Nat × Nat × ℚ) : Prop :=
  1 ≤ best.1 ∧ best.1 < lo ∧ best.2.1 = ceilDiv spp best.1 ∧
    best.2.2 = scoreOf spp w h best.1 ∧
    (∀ c, 1 ≤ c → c < lo → scoreOf spp w h c ≤ best.2.2) ∧
    (∀ c, 1 ≤ c → c < best.1 → scoreOf spp w h c < best.2.2)

theorem ceilDiv_bounds (spp c : Nat) (hc : 1 ≤ c) :
    spp ≤ c * ceilDiv spp c ∧ c * ceilDiv spp c < spp + c := by
  have hdm := Nat.div_add_mod (spp + c - 1) c
  have hmlt : (spp + c - 1) % c < c := Nat.mod_lt _ (by omega)
  unfold ceilDiv
  omega

theorem gridLoop_invariant (spp : Nat) (w h : ℚ) :
    ∀ fuel lo best, GoodBest spp w h lo best →
      GoodBest spp w h (lo + fuel) (gridLoop spp w h lo fuel best) := by
  intro fuel
  induction fuel with
  | zero => intro lo best hb; simpa [gridLoop] using hb
  | succ fuel ih =>
    intro lo best hb
    obtain ⟨hb1, hb2, hb3, hb4, hb5, hb6⟩ := hb
    have harith : lo + (fuel + 1) = (lo + 1) + fuel := by omega
    simp only [gridLoop]
    rw [harith]
    by_cases hcmp : best.2.2 < min (w / (lo : ℚ)) (h / (((spp + lo - 1) / lo : Nat) : ℚ))
    · rw [if_pos hcmp]
      apply ih
      refine ⟨by omega, by omega, rfl, rfl, ?_, ?_⟩
      · intro c hc1 hc2
        rcases Nat.lt_succ_iff_lt_or_eq.mp hc2 with hlt | heq
        · exact le_of_lt (lt_of_le_of_lt (hb5 c hc1 hlt) hcmp)
        · subst heq
          exact le_refl _
      · intro c hc1 hclt
        exact lt_of_le_of_lt (hb5 c hc1 hclt) hcmp
    · rw [if_neg hcmp]
      apply ih
      refine ⟨hb1, by omega, hb3, hb4, ?_, hb6⟩
      intro c hc1 hc2
      rcases Nat.lt_succ_iff_lt_or_eq.mp hc2 with hlt | heq
      · exact hb5 c hc1 hlt
      · subst heq
        exact not_lt.mp hcmp

theorem goodBest_finish (spp : Nat) (w h : ℚ) (best : Nat × Nat × ℚ)
    (hg : GoodBest spp w h (spp + 1) best) :
    (1 ≤ best.1 ∧ best.1 ≤ spp) ∧ best.2.1 = ceilDiv spp best.1 ∧
      (spp ≤ best.1 * best.2.1 ∧ best.1 * best.2.1 < spp + best.1) ∧
      min (w / (best.1 : ℚ)) (h / (best.2.1 : ℚ)) = scoreOf spp w h best.1 ∧
      (∀ c, 1 ≤ c → c ≤ spp → scoreOf spp w h c ≤ scoreOf spp w h best.1) ∧
      (∀ c, 1 ≤ c → c < best.1 → scoreOf spp w h c < scoreOf spp w h best.1) := by
  obtain ⟨g1, g2, g3, g4, g5, g6⟩ := hg
  have hb := ceilDiv_bounds spp best.1 g1
  refine ⟨⟨g1, by omega⟩, g3, by rw [g3]; exact hb, by rw [g3, scoreOf], ?_, ?_⟩
  · intro c hc1 hc2
    rw [← g4]
    exact g5 c hc1 (by omega)
  · intro c hc1 hclt
    rw [← g4]
    exact g6 c hc1 hclt

/-- C3: for every `sheets_per_page >= 1` and positive page dimensions,
`choose_grid` returns `(columns, rows)` with `columns` in
`[1, sheets_per_page]`, `rows = ceil(sheets_per_page / columns)` (hence
`columns * rows >= sheets_per_page`, and `columns * (rows - 1) <
sheets_per_page`), whose score `min(page_w / columns, page_h / rows)` is
maximal over all candidate column counts `1 .. sheets_per_page`, ties broken
in favour of the smallest such column count (every strictly smaller
candidate has a strictly smaller score). -/
theorem choose_grid_spec (spp : Nat) (w h : ℚ) (hspp : 1 ≤ spp) (hw : 0 < w) (hh : 0 < h) :
    ∀ cr, cr = choose_grid spp w h →
      (1 ≤ cr.1 ∧ cr.1 ≤ spp) ∧
      cr.2 = ceilDiv spp cr.1 ∧
      (spp ≤ cr.1 * cr.2 ∧ cr.1 * cr.2 < spp + cr.1) ∧
      min (w / (cr.1 : ℚ)) (h / (cr.2 : ℚ)) = scoreOf spp w h cr.1 ∧
      (∀ c, 1 ≤ c → c ≤ spp → scoreOf spp w h c ≤ scoreOf spp w h cr.1) ∧
      (∀ c, 1 ≤ c → c < cr.1 → scoreOf spp w h c < scoreOf spp w h cr.1) := by
  intro cr hcr
  obtain ⟨n, rfl⟩ : ∃ n, spp = n + 1 := ⟨spp - 1, by omega⟩
  have hrows1 : ((n + 1 + 1 - 1) / 1 : Nat) = n + 1 := by omega
  have hpos : (0 : ℚ) < min (w / ((1 : Nat) : ℚ)) (h / (((n + 1 + 1 - 1) / 1 : Nat) : ℚ)) := by
    rw [hrows1]
    refine lt_min ?_ ?_
    · simpa using hw
    · exact div_pos hh (by exact_mod_cast Nat.succ_pos n)
  have hstep : choose_grid (n + 1) w h =
      ((gridLoop (n + 1) w h 2 n (1, (n + 1 + 1 - 1) / 1,
          min (w / ((1 : Nat) : ℚ)) (h / (((n + 1 + 1 - 1) / 1 : Nat) : ℚ)))).1,
        (gridLoop (n + 1) w h 2 n (1, (n + 1 + 1 - 1) / 1,
          min (w / ((1 : Nat) : ℚ)) (h / (((n + 1 + 1 - 1) / 1 : Nat) : ℚ)))).2.1) := by
    rw [choose_grid]
    simp only [gridLoop]
    rw [if_pos (by linarith)]
  have hgood : GoodBest (n + 1) w h 2 (1, (n + 1 + 1 - 1) / 1,
      min (w / ((1 : Nat) : ℚ)) (h / (((n + 1 + 1 - 1) / 1 : Nat) : ℚ))) := by
    refine ⟨le_refl 1, by omega, rfl, rfl, ?_, ?_⟩
    · intro c hc1 hc2
      have hc : c = 1 := by omega
      subst hc
      exact le_refl _
    · intro c hc1 hclt
      omega
  have hinv := gridLoop_invariant (n + 1) w h n 2 _ hgood
  have hfin := goodBest_finish (n + 1) w h _ (by
    have h2n : 2 + n = n + 1 + 1 := by omega
    rw [h2n] at hinv
    exact hinv)
  subst hcr
  rw [hstep]
  exact hfin

theorem choose_grid_spec_witness :
    1 ≤ 4 ∧ (0 : ℚ) < 210 ∧ (0 : ℚ) < 297 ∧
      ((1 ≤ (choose_grid 4 210 297).1 ∧ (choose_grid 4 210 297).1 ≤ 4) ∧
        (choose_grid 4 210 297).2 = ceilDiv 4 (choose_grid 4 210 297).1 ∧
        (4 ≤ (choose_grid 4 210 297).1 * (choose_grid 4 210 297).2 ∧
          (choose_grid 4 210 297).1 * (choose_grid 4 210 297).2 <
            4 + (choose_grid 4 210 297).1) ∧
        min ((210 : ℚ) / ((choose_grid 4 210 297).1 : ℚ))
            ((297 : ℚ) / ((choose_grid 4 210 297).2 : ℚ)) =
          scoreOf 4 210 297 (choose_grid 4 210 297).1 ∧
        (∀ c, 1 ≤ c → c ≤ 4 →
          scoreOf 4 210 297 c ≤ scoreOf 4 210 297 (choose_grid 4 210 297).1) ∧
        (∀ c, 1 ≤ c → c < (choose_grid 4 210 297).1 →
          scoreOf 4 210 297 c < scoreOf 4 210 297 (choose_grid 4 210 297).1)) :=
  ⟨by norm_num, by norm_num, by norm_num,
    choose_grid_spec 4 210 297 (by norm_num) (by norm_num) (by norm_num) _ rfl⟩

/-! ## C1: the generated card -/

theorem sortedSample_spec (r0 : Rng) (seg : List Int) (k : Nat)
    (hnd : seg.Nodup) (hk : k ≤ seg.length) :
    (sortInts (sample r0 seg k).1).length = k ∧
    (sortInts (sample r0 seg k).1).Pairwise (· < ·) ∧
    ∀ x ∈ sortInts (sample r0 seg k).1, x ∈ seg :=
  ⟨(sortInts_length _).trans (sampleAux_length hk),
   sortInts_pairwise_lt (sampleAux_nodup hnd),
   fun x hx => sampleAux_subset x (sortInts_subset x hx)⟩

theorem segColumns_col (rng : Rng) (segs : List (List Int)) :
    ∀ c, c < 5 → ∃ r0 : Rng, (segColumns rng segs).1.getD c [] =
      sortInts (sample r0 (segAt segs c) (if c = 2 then 4 else 5)).1 := by
  intro c hc
  interval_cases c
  · exact ⟨rng, rfl⟩
  · exact ⟨_, rfl⟩
  · exact ⟨_, rfl⟩
  · exact ⟨_, rfl⟩
  · exact ⟨_, rfl⟩

theorem rowIndices_pairwise (c : Nat) : (rowIndices c).Pairwise (· < ·) := by
  unfold rowIndices
  split_ifs <;> decide

theorem rowIndices_length (c : Nat) :
    (rowIndices c).length = (if c = 2 then 4 else 5) := by
  unfold rowIndices
  split_ifs <;> rfl

theorem mem_rowIndices {r c : Nat} :
    r ∈ rowIndices c ↔ (r < 5 ∧ (c = 2 → r ≠ 2)) := by
  unfold rowIndices
  split_ifs with h
  · subst h
    simp only [List.mem_cons, List.not_mem_nil, or_false, eq_self_iff_true, true_implies]
    omega
  · simp only [List.mem_cons, List.not_mem_nil, or_false]
    constructor
    · intro h1
      exact ⟨by omega, fun hc => absurd hc h⟩
    · intro h1
      omega

theorem segColumns_length (rng : Rng) (segs : List (List Int)) :
    (segColumns rng segs).1.length = 5 := rfl

theorem cellIdx_lt {r c : Nat} (hr : r < 5) (hc : c < 5)
    (hnc : ¬(r = 2 ∧ c = 2)) : cellIdx r c < 24 := by
  unfold cellIdx
  split_ifs <;> omega

theorem cellIdx_inj {r c r' c' : Nat} (hr : r < 5) (hc : c < 5) (hr' : r' < 5)
    (hc' : c' < 5) (h1 : ¬(r = 2 ∧ c = 2)) (h2 : ¬(r' = 2 ∧ c' = 2))
    (hne : ¬(r = r' ∧ c = c')) : cellIdx r c ≠ cellIdx r' c' := by
  unfold cellIdx
  split_ifs <;> omega

theorem get?_some {l : List Int} {i : Nat} (h : i < l.length) :
    l.get? i = some (l.get ⟨i, h⟩) := by
  simp [List.get?_eq_getElem?, List.getElem?_eq_getElem h]

theorem randomCells_spec (rng : Rng) (mn mx : Int) (h24 : 24 ≤ mx - mn + 1) :
    (randomCells rng mn mx).1.length = 24 ∧ (randomCells rng mn mx).1.Nodup ∧
    ∀ x ∈ (randomCells rng mn mx).1, mn ≤ x ∧ x ≤ mx := by
  have hpool : 24 ≤ (intRange mn mx).length := by
    rw [length_intRange]
    omega
  have hs24 : (sample rng (intRange mn mx) 24).1.length = 24 := sampleAux_length hpool
  refine ⟨?_, ?_, ?_⟩
  · rw [randomCells, shuffle]
    rw [sampleAux_length (le_refl _)]
    exact hs24
  · exact sampleAux_nodup (sampleAux_nodup (nodup_intRange mn mx))
  · intro x hx
    exact mem_intRange.mp (sampleAux_subset x (sampleAux_subset x hx))

/-- The specified contents of a generated card: every non-centre cell holds
a value from the pool, all 24 values are pairwise distinct, and in segmented
mode each column's values lie in that column's segment, increase strictly
down the rows, and the centre cell is empty. -/
def CardSpec (mn mx : Int) (dist : String) (segs : List (List Int)) (card : Card) : Prop :=
  (∀ r c, r < 5 → c < 5 → ¬(r = 2 ∧ c = 2) →
    ∃ v, card r c = some v ∧ mn ≤ v ∧ v ≤ mx) ∧
  (∀ r c r' c' v v', r < 5 → c < 5 → r' < 5 → c' < 5 →
    ¬(r = 2 ∧ c = 2) → ¬(r' = 2 ∧ c' = 2) → ¬(r = r' ∧ c = c') →
    card r c = some v → card r' c' = some v' → v ≠ v') ∧
  (dist = "segmented" →
    (∀ r c v, c < 5 → card r c = some v → v ∈ segAt segs c) ∧
    (∀ c r r' v v', r < r' → card r c = some v → card r' c = some v' → v < v') ∧
    card 2 2 = none)

/-- C1: for every generated card (either distribution), the 24 non-centre
cells hold pairwise-distinct integers from the pool
`[min_number, max_number]`; under the segmented distribution (with the
segments computed by `segment_ranges`, as `generate_pdf` always passes, and a
validation-passing pool of at least 25 values) each column's values are
members of that column's segment and are strictly increasing from row 0 to
row 4, and column N's 4 values occupy rows 0, 1, 3, 4, skipping row 2 (rows
0, 1, 3, 4 of the centre column hold values by the first conjunct of
`CardSpec`, and the centre cell is `none` by the last). -/
theorem generate_card_spec (rng : Rng) (mn mx : Int) (dist : String)
    (segs : List (List Int))
    (hseg : dist = "segmented" → segs = segment_ranges mn mx 5 ∧ 25 ≤ mx - mn + 1)
    (hpool : dist ≠ "segmented" → 24 ≤ mx - mn + 1) :
    ∀ card, card = (generate_card rng mn mx dist segs).1 →
      CardSpec mn mx dist segs card := by
  intro card hcard
  unfold CardSpec
  by_cases hdist : dist = "segmented"
  · obtain ⟨hsegs, hrange⟩ := hseg hdist
    subst hdist
    subst hsegs
    subst hcard
    have hcardeq : ∀ r c, (generate_card rng mn mx "segmented" (segment_ranges mn mx 5)).1 r c =
        List.lookup r ((rowIndices c).zip
          ((segColumns rng (segment_ranges mn mx 5)).1.getD c [])) := by
      intro r c
      rw [generate_card, if_pos rfl]
    have hlen_seg : ∀ i, i < 5 → 5 ≤ (segAt (segment_ranges mn mx 5) i).length := by
      intro i hi
      have hl := segment_ranges_lengths mn mx i hi
      rw [length_intRange] at hl
      have h25 : 25 ≤ (mx - mn + 1).toNat := by omega
      rw [hl, sizeAt]
      split_ifs <;> omega
    have hcols : ∀ c, c < 5 → ∃ vals : List Int,
        (∀ r, (generate_card rng mn mx "segmented" (segment_ranges mn mx 5)).1 r c =
          List.lookup r ((rowIndices c).zip vals)) ∧
        vals.length = (if c = 2 then 4 else 5) ∧
        vals.Pairwise (· < ·) ∧
        (∀ x ∈ vals, x ∈ segAt (segment_ranges mn mx 5) c) := by
      intro c hc
      obtain ⟨r0, hcol⟩ := segColumns_col rng (segment_ranges mn mx 5) c hc
      have hk : (if c = 2 then 4 else 5) ≤ (segAt (segment_ranges mn mx 5) c).length := by
        have := hlen_seg c hc
        split_ifs <;> omega
      obtain ⟨hl1, hl2, hl3⟩ := sortedSample_spec r0 (segAt (segment_ranges mn mx 5) c)
        (if c = 2 then 4 else 5) (segment_ranges_nodup mn mx c hc) hk
      refine ⟨sortInts (sample r0 (segAt (segment_ranges mn mx 5) c) (if c = 2 then 4 else 5)).1,
        ?_, hl1, hl2, hl3⟩
      intro r
      rw [hcardeq r c, hcol]
    refine ⟨?_, ?_, ?_⟩
    · intro r c hr hc hnc
      obtain ⟨vals, hv1, hv2, hv3, hv4⟩ := hcols c hc
      have hrmem : r ∈ rowIndices c :=
        mem_rowIndices.mpr ⟨hr, fun hc2 hr2 => hnc ⟨hr2, hc2⟩⟩
      obtain ⟨v, hv⟩ := lookup_zip_isSome (by rw [rowIndices_length, hv2]) hrmem
      refine ⟨v, by rw [hv1]; exact hv, ?_⟩
      exact segment_ranges_mem_range mn mx c hc v (hv4 v (lookup_zip_val_mem hv))
    · intro r c r' c' v v' hr hc hr' hc' h1 h2 hne hv hv'
      by_cases hcc : c = c'
      · subst hcc
        obtain ⟨vals, hv1, hv2, hv3, hv4⟩ := hcols c hc
        rw [hv1] at hv hv'
        have hrne : r ≠ r' := fun h => hne ⟨h, rfl⟩
        rcases Nat.lt_or_ge r r' with hlt | hge
        · exact ne_of_lt (lookup_zip_mono (rowIndices_pairwise c) hv3 hlt hv hv')
        · have hlt : r' < r := by omega
          exact (ne_of_lt (lookup_zip_mono (rowIndices_pairwise c) hv3 hlt hv' hv)).symm
      · obtain ⟨vals, hv1, _, _, hv4⟩ := hcols c hc
        obtain ⟨vals', hv1', _, _, hv4'⟩ := hcols c' hc'
        have hm : v ∈ segAt (segment_ranges mn mx 5) c :=
          hv4 v (lookup_zip_val_mem (by rw [← hv1]; exact hv))
        have hm' : v' ∈ segAt (segment_ranges mn mx 5) c' :=
          hv4' v' (lookup_zip_val_mem (by rw [← hv1']; exact hv'))
        rcases Nat.lt_or_ge c c' with hlt | hge
        · exact ne_of_lt (segment_ranges_cross mn mx c c' hlt hc' v hm v' hm')
        · have hlt : c' < c := by omega
          exact (ne_of_lt (segment_ranges_cross mn mx c' c hlt hc v' hm' v hm)).symm
    · intro _
      refine ⟨?_, ?_, ?_⟩
      · intro r c v hc hv
        obtain ⟨vals, hv1, _, _, hv4⟩ := hcols c hc
        exact hv4 v (lookup_zip_val_mem (by rw [← hv1]; exact hv))
      · intro c r r' v v' hrr hv hv'
        by_cases hc : c < 5
        · obtain ⟨vals, hv1, _, hv3, _⟩ := hcols c hc
          rw [hv1] at hv hv'
          exact lookup_zip_mono (rowIndices_pairwise c) hv3 hrr hv hv'
        · exfalso
          rw [hcardeq] at hv
          rw [List.getD_eq_default] at hv
          · simp [List.lookup] at hv
          · have := segColumns_length rng (segment_ranges mn mx 5)
            omega
      · rw [hcardeq 2 2]
        apply lookup_zip_not_mem
        rw [rowIndices, if_pos rfl]
        decide
  · have h24 := hpool hdist
    subst hcard
    have hcardeq : ∀ r c, (generate_card rng mn mx dist segs).1 r c =
        (if r = 2 ∧ c = 2 then none
        else if r < 5 ∧ c < 5 then (randomCells rng mn mx).1.get? (cellIdx r c)
        else none) := by
      intro r c
      rw [generate_card, if_neg hdist]
    obtain ⟨hql, hqn, hqb⟩ := randomCells_spec rng mn mx h24
    refine ⟨?_, ?_, fun hd => absurd hd hdist⟩
    · intro r c hr hc hnc
      rw [hcardeq, if_neg hnc, if_pos ⟨hr, hc⟩]
      have hidx : cellIdx r c < (randomCells rng mn mx).1.length := by
        rw [hql]
        exact cellIdx_lt hr hc hnc
      exact ⟨_, get?_some hidx, hqb _ (List.get_mem _ _ _)⟩
    · intro r c r' c' v v' hr hc hr' hc' h1 h2 hne hv hv'
      rw [hcardeq, if_neg h1, if_pos ⟨hr, hc⟩] at hv
      rw [hcardeq, if_neg h2, if_pos ⟨hr', hc'⟩] at hv'
      have hidx : cellIdx r c < (randomCells rng mn mx).1.length := by
        rw [hql]
        exact cellIdx_lt hr hc h1
      have hidx' : cellIdx r' c' < (randomCells rng mn mx).1.length := by
        rw [hql]
        exact cellIdx_lt hr' hc' h2
      rw [get?_some hidx] at hv
      rw [get?_some hidx'] at hv'
      intro heq
      apply cellIdx_inj hr hc hr' hc' h1 h2 hne
      have hg : (randomCells rng mn mx).1.get ⟨cellIdx r c, hidx⟩ =
          (randomCells rng mn mx).1.get ⟨cellIdx r' c', hidx'⟩ := by
        rw [Option.some.injEq] at hv hv'
        rw [hv, hv', heq]
      exact congrArg Fin.val (hqn.get_inj_iff.mp hg)

/-- A concrete rng for witnesses: the all-zero stream. -/
def zeroRng : Rng := ⟨fun _ => 0, 0⟩

theorem generate_card_spec_witness :
    ("segmented" = "segmented" →
      segment_ranges 1 75 5 = segment_ranges 1 75 5 ∧ 25 ≤ (75 : Int) - 1 + 1) ∧
    ("segmented" ≠ "segmented" → 24 ≤ (75 : Int) - 1 + 1) ∧
    CardSpec 1 75 "segmented" (segment_ranges 1 75 5)
      ((generate_card zeroRng 1 75 "segmented" (segment_ranges 1 75 5)).1) :=
  ⟨fun _ => ⟨rfl, by norm_num⟩, fun hd => absurd rfl hd,
    generate_card_spec zeroRng 1 75 "segmented" (segment_ranges 1 75 5)
      (fun _ => ⟨rfl, by norm_num⟩) (fun hd => absurd rfl hd) _ rfl⟩

/-! ## C6: the free-centre cell -/

theorem segColumnsFC_col (fc : Bool) (rng : Rng) (segs : List (List Int)) :
    ∀ c, c < 5 → ∃ r0 : Rng, (segColumnsFC fc rng segs).1.getD c [] =
      sortInts (sample r0 (segAt segs c)
        (if fc = true ∧ c = 2 then 4 else 5)).1 := by
  intro c hc
  interval_cases c <;> cases fc
  · exact ⟨rng, rfl⟩
  · exact ⟨rng, rfl⟩
  · exact ⟨_, rfl⟩
  · exact ⟨_, rfl⟩
  · exact ⟨_, rfl⟩
  · exact ⟨_, rfl⟩
  · exact ⟨_, rfl⟩
  · exact ⟨_, rfl⟩
  · exact ⟨_, rfl⟩
  · exact ⟨_, rfl⟩

theorem rowIndicesFC_length (fc : Bool) (c : Nat) :
    (rowIndicesFC fc c).length = (if fc = true ∧ c = 2 then 4 else 5) := by
  unfold rowIndicesFC
  split_ifs <;> rfl

theorem mem_rowIndicesFC {fc : Bool} {r c : Nat} :
    r ∈ rowIndicesFC fc c ↔ (r < 5 ∧ (fc = true ∧ c = 2 → r ≠ 2)) := by
  unfold rowIndicesFC
  split_ifs with h
  · simp only [List.mem_cons, List.not_mem_nil, or_false]
    constructor
    · intro h1
      exact ⟨by omega, fun _ => by omega⟩
    · intro h1
      have := h1.2 h
      omega
  · simp only [List.mem_cons, List.not_mem_nil, or_false]
    constructor
    · intro h1
      exact ⟨by omega, fun hcon => absurd hcon h⟩
    · intro h1
      omega

theorem cellIdxFC_lt {fc : Bool} {r c : Nat} (hr : r < 5) (hc : c < 5)
    (hnc : fc = true → ¬(r = 2 ∧ c = 2)) :
    cellIdxFC fc r c < (if fc = true then 24 else 25) := by
  unfold cellIdxFC
  cases fc
  · simp only [Bool.false_eq_true, false_and, if_false]
    omega
  · have := hnc rfl
    simp only [true_and]
    split_ifs <;> omega

theorem randomCellsFC_spec (fc : Bool) (rng : Rng) (mn mx : Int)
    (hp : (if fc = true then 24 else 25) ≤ mx - mn + 1) :
    (randomCellsFC fc rng mn mx).1.length = (if fc = true then 24 else 25) := by
  have hpool : (if fc = true then 24 else 25) ≤ (intRange mn mx).length := by
    rw [length_intRange]
    cases fc <;> simp_all <;> omega
  rw [randomCellsFC, shuffle, sampleAux_length (le_refl _)]
  exact sampleAux_length hpool

/-- The free-centre specification of a card: when the free centre is enabled
the centre cell is the only cell holding no number; when it is disabled
every cell holds a number. -/
def FreeCenterSpec (fc : Bool) (card : Card) : Prop :=
  (fc = true → card 2 2 = none ∧
    ∀ r c, r < 5 → c < 5 → ¬(r = 2 ∧ c = 2) → ∃ v, card r c = some v) ∧
  (fc = false → ∀ r c, r < 5 → c < 5 → ∃ v, card r c = some v)

/-- C6: the free-centre cell (row 2, col 2) is never populated with a number
when the free centre is enabled — and it is the only such cell — and is
always populated with a number when the free centre is disabled.  Stated
over `generate_card_fc`, the spec-modelled generator with the free-centre
toggle (the generator under `src/` hard-codes the enabled behaviour); the
hypotheses are the validated segment/pool sizes. -/
theorem generate_card_fc_spec (fc : Bool) (rng : Rng) (mn mx : Int)
    (dist : String) (segs : List (List Int))
    (hseg : dist = "segmented" →
      (∀ i, i < 5 → i ≠ 2 → 5 ≤ (segAt segs i).length) ∧
      (fc = true → 4 ≤ (segAt segs 2).length) ∧
      (fc = false → 5 ≤ (segAt segs 2).length))
    (hpool : dist ≠ "segmented" →
      (fc = true → 24 ≤ mx - mn + 1) ∧ (fc = false → 25 ≤ mx - mn + 1)) :
    ∀ card, card = (generate_card_fc fc rng mn mx dist segs).1 →
      FreeCenterSpec fc card := by
  intro card hcard
  unfold FreeCenterSpec
  by_cases hdist : dist = "segmented"
  · obtain ⟨hs1, hs2, hs3⟩ := hseg hdist
    subst hdist hcard
    have hcardeq : ∀ r c,
        (generate_card_fc fc rng mn mx "segmented" segs).1 r c =
        List.lookup r ((rowIndicesFC fc c).zip
          ((segColumnsFC fc rng segs).1.getD c [])) := by
      intro r c
      rw [generate_card_fc, if_pos rfl]
    have hexists : ∀ r c, r < 5 → c < 5 → (fc = true ∧ c = 2 → r ≠ 2) →
        ∃ v, (generate_card_fc fc rng mn mx "segmented" segs).1 r c = some v := by
      intro r c hr hc hok
      obtain ⟨r0, hcol⟩ := segColumnsFC_col fc rng segs c hc
      have hk : (if fc = true ∧ c = 2 then 4 else 5) ≤ (segAt segs c).length := by
        by_cases hc2 : c = 2
        · subst hc2
          cases fc
          · simpa using hs3 rfl
          · simpa using hs2 rfl
        · have := hs1 c hc hc2
          split_ifs <;> omega
      have hlen : (sortInts (sample r0 (segAt segs c)
          (if fc = true ∧ c = 2 then 4 else 5)).1).length =
          (if fc = true ∧ c = 2 then 4 else 5) :=
        (sortInts_length _).trans (sampleAux_length hk)
      rw [hcardeq r c, hcol]
      exact lookup_zip_isSome (by rw [rowIndicesFC_length, hlen])
        (mem_rowIndicesFC.mpr ⟨hr, hok⟩)
    refine ⟨?_, ?_⟩
    · intro hfc
      refine ⟨?_, ?_⟩
      · rw [hcardeq 2 2]
        apply lookup_zip_not_mem
        rw [rowIndicesFC, if_pos ⟨hfc, rfl⟩]
        decide
      · intro r c hr hc hnc
        exact hexists r c hr hc (fun h2 hr2 => hnc ⟨hr2, h2.2⟩)
    · intro hfc
      intro r c hr hc
      refine hexists r c hr hc (fun h2 => ?_)
      rw [hfc] at h2
      exact absurd h2.1 (by simp)
  · obtain ⟨hp1, hp2⟩ := hpool hdist
    subst hcard
    have hcardeq : ∀ r c,
        (generate_card_fc fc rng mn mx dist segs).1 r c =
        (if fc = true ∧ r = 2 ∧ c = 2 then none
        else if r < 5 ∧ c < 5 then
          (randomCellsFC fc rng mn mx).1.get? (cellIdxFC fc r c)
        else none) := by
      intro r c
      rw [generate_card_fc, if_neg hdist]
    have hlen : (randomCellsFC fc rng mn mx).1.length = (if fc = true then 24 else 25) := by
      apply randomCellsFC_spec
      cases fc
      · simpa using hp2 rfl
      · simpa using hp1 rfl
    refine ⟨?_, ?_⟩
    · intro hfc
      refine ⟨?_, ?_⟩
      · rw [hcardeq 2 2, if_pos ⟨hfc, rfl, rfl⟩]
      · intro r c hr hc hnc
        rw [hcardeq, if_neg (fun h2 => hnc h2.2), if_pos ⟨hr, hc⟩]
        have hidx : cellIdxFC fc r c < (randomCellsFC fc rng mn mx).1.length := by
          rw [hlen]
          exact cellIdxFC_lt hr hc (fun _ => hnc)
        exact ⟨_, get?_some hidx⟩
    · intro hfc
      intro r c hr hc
      rw [hcardeq, if_neg (by rw [hfc]; simp), if_pos ⟨hr, hc⟩]
      have hidx : cellIdxFC fc r c < (randomCellsFC fc rng mn mx).1.length := by
        rw [hlen]
        refine cellIdxFC_lt hr hc (fun hcon => ?_)
        rw [hfc] at hcon
        exact absurd hcon (by simp)
      exact ⟨_, get?_some hidx⟩

theorem generate_card_fc_spec_witness :
    ("segmented" = "segmented" →
      (∀ i, i < 5 → i ≠ 2 → 5 ≤ (segAt (segment_ranges 1 75 5) i).length) ∧
      (true = true → 4 ≤ (segAt (segment_ranges 1 75 5) 2).length) ∧
      (true = false → 5 ≤ (segAt (segment_ranges 1 75 5) 2).length)) ∧
    ("segmented" ≠ "segmented" →
      (true = true → 24 ≤ (75 : Int) - 1 + 1) ∧
      (true = false → 25 ≤ (75 : Int) - 1 + 1)) ∧
    FreeCenterSpec true
      ((generate_card_fc true zeroRng 1 75 "segmented" (segment_ranges 1 75 5)).1) :=
  ⟨fun _ => by decide, fun hd => absurd rfl hd,
    generate_card_fc_spec true zeroRng 1 75 "segmented" (segment_ranges 1 75 5)
      (fun _ => by decide) (fun hd => absurd rfl hd) _ rfl⟩

/-! ## C4: validation -/

theorem length_eq_five {α : Type} {l : List α} (h : l.length = 5) :
    ∃ a b c d e, l = [a, b, c, d, e] := by
  rcases l with _ | ⟨a, _ | ⟨b, _ | ⟨c, _ | ⟨d, _ | ⟨e, _ | ⟨f, l⟩⟩⟩⟩⟩⟩ <;> simp_all

theorem checkColumns_ok_iff_aux (ls : List String) :
    ∀ (bs : List (List Int)) (ns : List Nat),
      (checkColumns ls bs ns = Except.ok ()) ↔
      (∀ i, i < ls.length → i < bs.length → i < ns.length →
        ns.getD i 0 ≤ (bs.getD i []).length) := by
  induction ls with
  | nil =>
    intro bs ns
    constructor
    · intro _ i hi1 _ _
      exact absurd hi1 (by simp)
    · intro _
      rfl
  | cons l ls ih =>
    intro bs ns
    cases bs with
    | nil =>
      constructor
      · intro _ i _ hi2 _
        exact absurd hi2 (by simp)
      · intro _
        rfl
    | cons b bs =>
      cases ns with
      | nil =>
        constructor
        · intro _ i _ _ hi3
          exact absurd hi3 (by simp)
        · intro _
          rfl
      | cons n ns =>
        simp only [checkColumns]
        by_cases hb : b.length < n
        · rw [if_pos hb]
          constructor
          · intro h
            simp at h
          · intro hall
            have h0 := hall 0 (by simp) (by simp) (by simp)
            simp only [List.getD_cons_zero] at h0
            omega
        · rw [if_neg hb]
          rw [ih bs ns]
          constructor
          · intro hrec i hi1 hi2 hi3
            cases i with
            | zero =>
              simpa using (by omega : n ≤ b.length)
            | succ j =>
              simp only [List.getD_cons_succ]
              exact hrec j (by simpa using hi1) (by simpa using hi2) (by simpa using hi3)
          · intro hall j hj1 hj2 hj3
            have := hall (j + 1) (by simpa using hj1) (by simpa using hj2) (by simpa using hj3)
            simpa using this

theorem checkColumns_ok_iff (segs : List (List Int)) (h5 : segs.length = 5) :
    (checkColumns LETTERS_S segs required_per_col = Except.ok ()) ↔
    ∀ i, i < 5 → required_per_col.getD i 0 ≤ (segAt segs i).length := by
  rw [checkColumns_ok_iff_aux]
  simp only [segAt]
  constructor
  · intro h i hi
    refine h i ?_ ?_ ?_
    · show i < (5 : Nat)
      omega
    · omega
    · show i < (5 : Nat)
      omega
  · intro h i hi1 _ _
    refine h i ?_
    revert hi1
    show i < (5 : Nat) → i < 5
    exact id

/-- C4: `validate_config` raises a fatal `ValueError` — never routed to a
confirmation prompt — if and only if the sheet count is ≤ 0, the per-page
count is ≤ 0, `max_number < min_number`, the pool has fewer than 24 values,
or, in segmented mode, some computed segment is smaller than its column's
requirement `[5,5,4,5,5]`; otherwise it returns the 5 column segments in
segmented mode and an empty segment list in fully-random mode.  The
hypothesis restricts to runs whose confirmation prompts, if reached, are
accepted (`assume_yes` or affirmative answers); a declined prompt is the
distinct user-cancellation outcome `Except.ok none`, not a fatal error. -/
theorem validate_config_spec (c : Config) (a1 a2 : Bool)
    (hconf : c.assume_yes = true ∨ (a1 = true ∧ a2 = true)) :
    ((∃ e, validate_config c a1 a2 = Except.error e) ↔ fatalConds c) ∧
    (¬ fatalConds c → validate_config c a1 a2 =
      Except.ok (some (if c.distribution = "segmented"
        then segment_ranges c.min_number c.max_number 5 else []))) := by
  have hw1 : ¬(c.sheets % c.sheets_per_page ≠ 0 ∧ ¬(c.assume_yes = true ∨ a1 = true)) := by
    rcases hconf with h | ⟨h, _⟩ <;> tauto
  have hw2 : ¬(allEqualLengths (segment_ranges c.min_number c.max_number 5) = false ∧
      ¬(c.assume_yes = true ∨ a2 = true)) := by
    rcases hconf with h | ⟨_, h⟩ <;> tauto
  by_cases h1 : c.sheets ≤ 0
  · have hv : validate_config c a1 a2 = Except.error "--sheets must be greater than 0" := by
      rw [validate_config, if_pos h1]
    have hf : fatalConds c := Or.inl h1
    exact ⟨⟨fun _ => hf, fun _ => ⟨_, hv⟩⟩, fun hnf => absurd hf hnf⟩
  by_cases h2 : c.sheets_per_page ≤ 0
  · have hv : validate_config c a1 a2 =
        Except.error "--sheets-per-page must be greater than 0" := by
      rw [validate_config, if_neg h1, if_pos h2]
    have hf : fatalConds c := Or.inr (Or.inl h2)
    exact ⟨⟨fun _ => hf, fun _ => ⟨_, hv⟩⟩, fun hnf => absurd hf hnf⟩
  by_cases h3 : c.max_number < c.min_number
  · have hv : validate_config c a1 a2 =
        Except.error "--max-number must be >= --min-number" := by
      rw [validate_config, if_neg h1, if_neg h2, if_pos h3]
    have hf : fatalConds c := Or.inr (Or.inr (Or.inl h3))
    exact ⟨⟨fun _ => hf, fun _ => ⟨_, hv⟩⟩, fun hnf => absurd hf hnf⟩
  by_cases h4 : c.max_number - c.min_number + 1 < 24
  · have hv : validate_config c a1 a2 = Except.error
        "Number range must include at least 24 values for a 5x5 card with free center" := by
      rw [validate_config, if_neg h1, if_neg h2, if_neg h3, if_pos h4]
    have hf : fatalConds c := Or.inr (Or.inr (Or.inr (Or.inl h4)))
    exact ⟨⟨fun _ => hf, fun _ => ⟨_, hv⟩⟩, fun hnf => absurd hf hnf⟩
  by_cases h5 : c.distribution = "segmented"
  · cases hck : checkColumns LETTERS_S (segment_ranges c.min_number c.max_number 5)
        required_per_col with
    | error e =>
      have hv : validate_config c a1 a2 = Except.error e := by
        rw [validate_config, if_neg h1, if_neg h2, if_neg h3, if_neg h4, if_neg hw1,
          if_pos h5, if_neg hw2, hck]
      have hshort : ∃ i, i < 5 ∧
          (segAt (segment_ranges c.min_number c.max_number 5) i).length <
            required_per_col.getD i 0 := by
        by_contra hno
        push_neg at hno
        have hok : checkColumns LETTERS_S (segment_ranges c.min_number c.max_number 5)
            required_per_col = Except.ok () :=
          (checkColumns_ok_iff _ (segment_ranges_length _ _)).mpr (fun i hi => hno i hi)
        rw [hck] at hok
        simp at hok
      have hf : fatalConds c := Or.inr (Or.inr (Or.inr (Or.inr ⟨h5, hshort⟩)))
      exact ⟨⟨fun _ => hf, fun _ => ⟨e, hv⟩⟩, fun hnf => absurd hf hnf⟩
    | ok u =>
      cases u
      have hv : validate_config c a1 a2 =
          Except.ok (some (segment_ranges c.min_number c.max_number 5)) := by
        rw [validate_config, if_neg h1, if_neg h2, if_neg h3, if_neg h4, if_neg hw1,
          if_pos h5, if_neg hw2, hck]
      have hnf : ¬ fatalConds c := by
        intro hf
        rcases hf with h | h | h | h | ⟨_, i, hi, hlen⟩
        · exact h1 h
        · exact h2 h
        · exact h3 h
        · exact h4 h
        · have := (checkColumns_ok_iff _ (segment_ranges_length _ _)).mp hck i hi
          omega
      refine ⟨⟨?_, fun hf => absurd hf hnf⟩, ?_⟩
      · rintro ⟨e, he⟩
        rw [hv] at he
        simp at he
      · intro _
        rw [hv, if_pos h5]
  · have hv : validate_config c a1 a2 = Except.ok (some []) := by
      rw [validate_config, if_neg h1, if_neg h2, if_neg h3, if_neg h4, if_neg hw1,
        if_neg h5]
    have hnf : ¬ fatalConds c := by
      intro hf
      rcases hf with h | h | h | h | ⟨hd, _⟩
      · exact h1 h
      · exact h2 h
      · exact h3 h
      · exact h4 h
      · exact h5 hd
    refine ⟨⟨?_, fun hf => absurd hf hnf⟩, ?_⟩
    · rintro ⟨e, he⟩
      rw [hv] at he
      simp at he
    · intro _
      rw [hv, if_neg h5]

/-- A concrete configuration for witnesses: the source's default command
line (4 sheets, 4 per page, pool 1..75, segmented, black letters, seed 42).
-/
def defaultConfig : Config :=
  { output := "bingo_sheets.pdf", sheets := 4, sheets_per_page := 4,
    paper_size := "a4", min_number := 1, max_number := 75,
    distribution := "segmented", letter_color_mode := "black",
    custom_letter_colors := none, seed := some 42, assume_yes := false }

theorem validate_config_spec_witness :
    (defaultConfig.assume_yes = true ∨ (true = true ∧ true = true)) ∧
      (((∃ e, validate_config defaultConfig true true = Except.error e) ↔
          fatalConds defaultConfig) ∧
        (¬ fatalConds defaultConfig → validate_config defaultConfig true true =
          Except.ok (some (if defaultConfig.distribution = "segmented"
            then segment_ranges defaultConfig.min_number defaultConfig.max_number 5
            else [])))) :=
  ⟨Or.inr ⟨rfl, rfl⟩, validate_config_spec defaultConfig true true (Or.inr ⟨rfl, rfl⟩)⟩

/-! ## C10: the pool-of-24 boundary -/

theorem segment_ranges_map_len (mn mx : Int) :
    ∀ s0 s1 s2 s3 s4, segment_ranges mn mx 5 = [s0, s1, s2, s3, s4] →
      ∀ i, i < 5 → (segAt [s0, s1, s2, s3, s4] i).length =
        sizeAt ((mx - mn + 1).toNat / 5) ((mx - mn + 1).toNat % 5) i := by
  intro s0 s1 s2 s3 s4 he i hi
  rw [← he, segment_ranges_lengths mn mx i hi, length_intRange]

theorem segment_ranges_24 (mn mx : Int) (h24 : mx - mn + 1 = 24) :
    (segment_ranges mn mx 5).map List.length = [5, 5, 5, 5, 4] := by
  obtain ⟨s0, s1, s2, s3, s4, he⟩ := length_eq_five (segment_ranges_length mn mx)
  have hT : (mx - mn + 1).toNat = 24 := by omega
  have hlen := segment_ranges_map_len mn mx s0 s1 s2 s3 s4 he
  rw [hT] at hlen
  have l0 : s0.length = 5 := by
    have := hlen 0 (by omega)
    simpa [segAt, sizeAt] using this
  have l1 : s1.length = 5 := by
    have := hlen 1 (by omega)
    simpa [segAt, sizeAt] using this
  have l2 : s2.length = 5 := by
    have := hlen 2 (by omega)
    simpa [segAt, sizeAt] using this
  have l3 : s3.length = 5 := by
    have := hlen 3 (by omega)
    simpa [segAt, sizeAt] using this
  have l4 : s4.length = 4 := by
    have := hlen 4 (by omega)
    simpa [segAt, sizeAt] using this
  rw [he]
  simp [l0, l1, l2, l3, l4]

theorem checkColumns_pool_iff (mn mx : Int) :
    (checkColumns LETTERS_S (segment_ranges mn mx 5) required_per_col = Except.ok ()) ↔
      25 ≤ mx - mn + 1 := by
  rw [checkColumns_ok_iff _ (segment_ranges_length mn mx)]
  have hmod : (mx - mn + 1).toNat % 5 < 5 := Nat.mod_lt _ (by omega)
  constructor
  · intro hall
    have h4 := hall 4 (by omega)
    rw [segment_ranges_lengths mn mx 4 (by omega), length_intRange] at h4
    have hreq : required_per_col.getD 4 0 = 5 := rfl
    rw [hreq, sizeAt, if_neg (by omega)] at h4
    omega
  · intro h25
    intro i hi
    rw [segment_ranges_lengths mn mx i hi, length_intRange]
    have hbase : 5 ≤ (mx - mn + 1).toNat / 5 := by omega
    have hreq : required_per_col.getD i 0 ≤ 5 := by
      interval_cases i <;> simp [required_per_col]
    rw [sizeAt]
    split_ifs <;> omega

/-- C10: for every configuration with segmented distribution and pool size
exactly 24, `validate_config` passes the pool-size check but (under accepted
confirmation prompts) raises the fatal per-column error: the segment lengths
are `[5, 5, 5, 5, 4]`, so column O gets 4 values but requires 5, and the
raised message is exactly that error; moreover the segmented per-column
check succeeds exactly when the pool size is at least 25. -/
theorem validate_pool24_spec (c : Config) (a1 a2 : Bool)
    (hd : c.distribution = "segmented")
    (hs : 0 < c.sheets) (hp : 0 < c.sheets_per_page)
    (h24 : c.max_number - c.min_number + 1 = 24)
    (hconf : c.assume_yes = true ∨ (a1 = true ∧ a2 = true)) :
    ((segment_ranges c.min_number c.max_number 5).map List.length = [5, 5, 5, 5, 4] ∧
      validate_config c a1 a2 =
        Except.error "Not enough numbers in column O range: need 5, got 4") ∧
    (∀ mn mx : Int,
      (checkColumns LETTERS_S (segment_ranges mn mx 5) required_per_col =
        Except.ok ()) ↔ 25 ≤ mx - mn + 1) := by
  refine ⟨⟨segment_ranges_24 _ _ h24, ?_⟩, checkColumns_pool_iff⟩
  have hw1 : ¬(c.sheets % c.sheets_per_page ≠ 0 ∧ ¬(c.assume_yes = true ∨ a1 = true)) := by
    rcases hconf with h | ⟨h, _⟩ <;> tauto
  have hw2 : ¬(allEqualLengths (segment_ranges c.min_number c.max_number 5) = false ∧
      ¬(c.assume_yes = true ∨ a2 = true)) := by
    rcases hconf with h | ⟨_, h⟩ <;> tauto
  obtain ⟨s0, s1, s2, s3, s4, he⟩ :=
    length_eq_five (segment_ranges_length c.min_number c.max_number)
  have hmap := segment_ranges_24 c.min_number c.max_number h24
  rw [he] at hmap
  simp only [List.map_cons, List.map_nil, List.cons.injEq, and_true] at hmap
  obtain ⟨l0, l1, l2, l3, l4⟩ := hmap
  have hck : checkColumns LETTERS_S (segment_ranges c.min_number c.max_number 5)
      required_per_col =
      Except.error "Not enough numbers in column O range: need 5, got 4" := by
    rw [he]
    simp only [checkColumns, LETTERS_S, required_per_col]
    rw [if_neg (by omega), if_neg (by omega), if_neg (by omega), if_neg (by omega),
      if_pos (by omega), l4]
    rfl
  rw [validate_config, if_neg (by omega), if_neg (by omega), if_neg (by omega),
    if_neg (by omega), if_neg hw1, if_pos hd, if_neg hw2, hck]

/-- A pool of exactly 24 values: the `defaultConfig` with `max_number` 24. -/
def pool24Config : Config :=
  { defaultConfig with max_number := 24 }

theorem validate_pool24_spec_witness :
    (pool24Config.distribution = "segmented" ∧ 0 < pool24Config.sheets ∧
      0 < pool24Config.sheets_per_page ∧
      pool24Config.max_number - pool24Config.min_number + 1 = 24 ∧
      (pool24Config.assume_yes = true ∨ (true = true ∧ true = true))) ∧
    (((segment_ranges pool24Config.min_number pool24Config.max_number 5).map
        List.length = [5, 5, 5, 5, 4] ∧
      validate_config pool24Config true true =
        Except.error "Not enough numbers in column O range: need 5, got 4") ∧
    (∀ mn mx : Int,
      (checkColumns LETTERS_S (segment_ranges mn mx 5) required_per_col =
        Except.ok ()) ↔ 25 ≤ mx - mn + 1)) :=
  ⟨⟨rfl, by norm_num [pool24Config, defaultConfig], by norm_num [pool24Config, defaultConfig],
      by norm_num [pool24Config, defaultConfig], Or.inr ⟨rfl, rfl⟩⟩,
    validate_pool24_spec pool24Config true true rfl
      (by norm_num [pool24Config, defaultConfig])
      (by norm_num [pool24Config, defaultConfig])
      (by norm_num [pool24Config, defaultConfig]) (Or.inr ⟨rfl, rfl⟩)⟩

/-! ## C5, C8, C9: the document run -/

/-- A concrete rng implementation for witnesses: all-zero streams for every
seed. -/
def zeroImpl : Option Int → Nat → Nat := fun _ _ => 0

/-- C5: for every seed, two runs of the generator with identical
configuration (including the same seed) produce identical output — the same
sequence of sampled cards, the same letter colours, the same grid plan and
the same canvas event trace (hence a byte-identical document, the external
canvas backend being a function of this trace).  `impl` is the seeded
pseudo-random implementation, shared by both runs; the present seed makes
the run independent of any non-deterministic seeding. -/
theorem generate_pdf_deterministic (impl : Option Int → Nat → Nat)
    (c1 c2 : Config) (a1 a2 : Bool) (s : Int)
    (houtput : c1.output = c2.output) (hsheets : c1.sheets = c2.sheets)
    (hspp : c1.sheets_per_page = c2.sheets_per_page)
    (hpaper : c1.paper_size = c2.paper_size)
    (hmin : c1.min_number = c2.min_number) (hmax : c1.max_number = c2.max_number)
    (hdist : c1.distribution = c2.distribution)
    (hmode : c1.letter_color_mode = c2.letter_color_mode)
    (hcustom : c1.custom_letter_colors = c2.custom_letter_colors)
    (hseed1 : c1.seed = some s) (hseed2 : c2.seed = some s)
    (hay : c1.assume_yes = c2.assume_yes) :
    generate_pdf impl c1 a1 a2 = generate_pdf impl c2 a1 a2 := by
  have hcc : c1 = c2 := by
    cases c1
    cases c2
    simp_all
  rw [hcc]

theorem generate_pdf_deterministic_witness :
    defaultConfig.seed = some 42 ∧
      generate_pdf zeroImpl defaultConfig true true =
        generate_pdf zeroImpl defaultConfig true true :=
  ⟨rfl, generate_pdf_deterministic zeroImpl defaultConfig defaultConfig true true 42
    rfl rfl rfl rfl rfl rfl rfl rfl rfl rfl rfl rfl⟩

/-- C8: the output document resource is never created before all validation
and confirmation completes: whenever the run outcome is a fatal error or a
user cancellation, the canvas event trace is empty — the output file is
never opened and zero cards are drawn.  (In the success outcome the
`openCanvas` event is emitted only after `validate_config` has returned
successfully, by construction of `generate_pdf`.) -/
theorem no_output_before_validation (impl : Option Int → Nat → Nat)
    (c : Config) (a1 a2 : Bool) :
    ∀ r t, generate_pdf impl c a1 a2 = (r, t) →
      ((∃ e, r = RunResult.fatal e) ∨ r = RunResult.cancelled) → t = [] := by
  intro r t h habort
  unfold generate_pdf at h
  split at h
  all_goals try split at h
  all_goals try split at h
  all_goals try split at h
  all_goals rw [Prod.mk.injEq] at h
  all_goals obtain ⟨hr, ht⟩ := h
  all_goals
    first
      | exact ht.symm
      | (rcases habort with ⟨e, he⟩ | he <;> rw [← hr] at he <;> simp at he)

/-- A fatally misconfigured run for witnesses: zero sheets requested. -/
def zeroSheetsConfig : Config :=
  { defaultConfig with sheets := 0 }

theorem no_output_before_validation_witness :
    ((∃ e, (generate_pdf zeroImpl zeroSheetsConfig true true).1 = RunResult.fatal e) ∨
      (generate_pdf zeroImpl zeroSheetsConfig true true).1 = RunResult.cancelled) ∧
    (generate_pdf zeroImpl zeroSheetsConfig true true).2 = [] :=
  ⟨Or.inl ⟨_, rfl⟩,
    no_output_before_validation zeroImpl zeroSheetsConfig true true _ _ rfl
      (Or.inl ⟨_, rfl⟩)⟩

/-- C9: fatal configuration errors and user-declined warnings terminate with
distinguishable statuses: a fatal (user-input) error exits with 2, a
declined recoverable warning is a clean cancellation with exit status 1
(Python's `sys.exit(1)`, not an uncaught crash), success exits 0, and the
three statuses are pairwise distinct (in particular both failure statuses
are non-zero and differ from each other). -/
theorem exit_codes_spec (impl : Option Int → Nat → Nat) (c : Config) (a1 a2 : Bool) :
    ((∃ e, (generate_pdf impl c a1 a2).1 = RunResult.fatal e) →
      main_exit impl c a1 a2 = 2) ∧
    ((generate_pdf impl c a1 a2).1 = RunResult.cancelled →
      main_exit impl c a1 a2 = 1) ∧
    ((∃ lc g cards, (generate_pdf impl c a1 a2).1 = RunResult.done lc g cards) →
      main_exit impl c a1 a2 = 0) ∧
    ((2 : Int) ≠ 1 ∧ (2 : Int) ≠ 0 ∧ (1 : Int) ≠ 0) := by
  unfold main_exit
  cases hres : (generate_pdf impl c a1 a2).1 with
  | fatal m =>
    refine ⟨fun _ => rfl, fun hcon => ?_, fun hcon => ?_, by norm_num⟩
    · exact absurd hcon (by simp)
    · obtain ⟨lc, g, cards, hcon⟩ := hcon
      exact absurd hcon (by simp)
  | cancelled =>
    refine ⟨fun hcon => ?_, fun _ => rfl, fun hcon => ?_, by norm_num⟩
    · obtain ⟨e, he⟩ := hcon
      exact absurd he (by simp)
    · obtain ⟨lc, g, cards, hcon⟩ := hcon
      exact absurd hcon (by simp)
  | done lc g cards =>
    refine ⟨fun hcon => ?_, fun hcon => ?_, fun _ => rfl, by norm_num⟩
    · obtain ⟨e, he⟩ := hcon
      exact absurd he (by simp)
    · exact absurd hcon (by simp)

theorem exit_codes_spec_witness :
    (∃ e, (generate_pdf zeroImpl zeroSheetsConfig true true).1 = RunResult.fatal e) ∧
    main_exit zeroImpl zeroSheetsConfig true true = 2 :=
  ⟨⟨_, rfl⟩, (exit_codes_spec zeroImpl zeroSheetsConfig true true).1 ⟨_, rfl⟩⟩

/-! ## C7: custom letter colours -/

theorem substringB_singleton (ch : Char) :
    substringB [ch] LETTERS = true ↔ ch ∈ LETTERS := by
  have hL : LETTERS = ['B', 'I', 'N', 'G', 'O'] := rfl
  rw [hL]
  simp [substringB, prefB]

theorem parse_hex_ok_iff (s : List Char) :
    (∃ cv, parse_hex_color s = Except.ok cv) ↔
    (∃ rest, s = '#' :: rest ∧ rest.length = 6 ∧ rest.all isHexDigitB = true) := by
  cases s with
  | nil => simp [parse_hex_color]
  | cons c rest =>
    simp only [parse_hex_color]
    by_cases hok : c = '#' ∧ rest.length = 6 ∧ rest.all isHexDigitB
    · rw [if_pos hok]
      constructor
      · intro _
        exact ⟨rest, by rw [hok.1], hok.2.1, hok.2.2⟩
      · intro _
        exact ⟨_, rfl⟩
    · rw [if_neg hok]
      constructor
      · rintro ⟨cv, hcv⟩
        simp at hcv
      · rintro ⟨rest', hrest', h6, hall⟩
        obtain ⟨hc, hr⟩ : c = '#' ∧ rest = rest' := by
          rw [List.cons_eq_cons] at hrest'
          exact ⟨hrest'.1, hrest'.2⟩
        subst hc hr
        exact absurd ⟨rfl, h6, hall⟩ hok

theorem parseColorItems_ok_items :
    ∀ (items : List (List Char)) (acc m : List (List Char × ColorV)),
      parseColorItems items acc = Except.ok m →
      ∀ item ∈ items, ∃ key rest, splitFirst ':' item = some (key, rest) ∧
        substringB (stripUpper key) LETTERS = true ∧
        ∃ cv, parse_hex_color (stripChars rest) = Except.ok cv := by
  intro items
  induction items with
  | nil =>
    intro acc m _ item hitem
    exact absurd hitem (by simp)
  | cons it rest ih =>
    intro acc m h item hitem
    rw [parseColorItems] at h
    rcases hsp : splitFirst ':' it with _ | ⟨key, colorPart⟩
    · rw [hsp] at h
      simp at h
    · rw [hsp] at h
      dsimp only at h
      by_cases hsub : substringB (stripUpper key) LETTERS = false
      · rw [if_pos hsub] at h
        simp at h
      · rw [if_neg hsub] at h
        rcases hhex : parse_hex_color (stripChars colorPart) with e | cv
        · rw [hhex] at h
          simp at h
        · rw [hhex] at h
          rcases List.mem_cons.mp hitem with rfl | hmem
          · exact ⟨key, colorPart, hsp, by simpa using hsub, cv, hhex⟩
          · exact ih _ m h item hmem

theorem parse_ok_inv (s : List Char) (m : List (List Char × ColorV))
    (h : parse_custom_letter_colors (some s) = Except.ok m) :
    parseColorItems (splitChar ',' s) [] = Except.ok m ∧
    LETTERS.filter (fun ch => (dlookup m [ch]).isNone) = [] := by
  rw [parse_custom_letter_colors] at h
  by_cases hs : s = []
  · rw [if_pos hs] at h
    simp at h
  · rw [if_neg hs] at h
    rcases hp : parseColorItems (splitChar ',' s) [] with e | m'
    · rw [hp] at h
      simp at h
    · rw [hp] at h
      dsimp only at h
      by_cases hm : (LETTERS.filter (fun ch => (dlookup m' [ch]).isNone)).isEmpty = true
      · rw [if_pos hm] at h
        simp only [Except.ok.injEq] at h
        subst h
        exact ⟨rfl, by simpa using hm⟩
      · rw [if_neg hm] at h
        simp at h

/-- C7: custom letter-colour parsing fails whenever any of the five required
letters B,I,N,G,O is missing (here: the exact spec missing the `O` entry
fails with a message naming `O`, and generally any successful parse contains
all five letters), whenever an entry's key is an unrecognized letter (a
single-character key, after stripping and upper-casing, that is not one of
B,I,N,G,O — the source's membership test is Python substring containment in
"BINGO"), or whenever a colour value fails strict 6-digit `#RRGGBB` hex
validation (characterized exactly by the last conjunct); and the exact spec
`B:#1F77B4,I:#D62728,N:#2CA02C,G:#FFBF00,O:#9467BD` parses to exactly five
entries with exactly those RGB channel values. -/
theorem parse_custom_letter_colors_spec :
    (parse_custom_letter_colors
        (some "B:#1F77B4,I:#D62728,N:#2CA02C,G:#FFBF00,O:#9467BD".data) =
      Except.ok [(['B'], (31, 119, 180)), (['I'], (214, 39, 40)), (['N'], (44, 160, 44)),
        (['G'], (255, 191, 0)), (['O'], (148, 103, 189))]) ∧
    (parse_custom_letter_colors (some "B:#1F77B4,I:#D62728,N:#2CA02C,G:#FFBF00".data) =
      Except.error "Missing custom colors for: O".data) ∧
    (∀ s m, parse_custom_letter_colors (some s) = Except.ok m →
      ∀ ch ∈ LETTERS, ∃ cv, dlookup m [ch] = some cv) ∧
    (∀ s item key rest ch, item ∈ splitChar ',' s →
      splitFirst ':' item = some (key, rest) → stripUpper key = [ch] →
      ch ∉ LETTERS → ∃ e, parse_custom_letter_colors (some s) = Except.error e) ∧
    (∀ s item key rest, item ∈ splitChar ',' s →
      splitFirst ':' item = some (key, rest) →
      (∀ cv, parse_hex_color (stripChars rest) ≠ Except.ok cv) →
      ∃ e, parse_custom_letter_colors (some s) = Except.error e) ∧
    (∀ v, (∃ cv, parse_hex_color v = Except.ok cv) ↔
      (∃ rest, v = '#' :: rest ∧ rest.length = 6 ∧ rest.all isHexDigitB = true)) := by
  refine ⟨rfl, rfl, ?_, ?_, ?_, parse_hex_ok_iff⟩
  · intro s m h ch hch
    obtain ⟨_, hfil⟩ := parse_ok_inv s m h
    have hnone := List.filter_eq_nil_iff.mp hfil ch hch
    rcases hl : dlookup m [ch] with _ | cv
    · rw [hl] at hnone
      simp at hnone
    · exact ⟨cv, rfl⟩
  · intro s item key rest ch hitem hsp hkey hch
    rcases hres : parse_custom_letter_colors (some s) with e | m
    · exact ⟨e, rfl⟩
    · exfalso
      obtain ⟨hp, _⟩ := parse_ok_inv s m hres
      obtain ⟨key', rest', hsp', hsub, -⟩ :=
        parseColorItems_ok_items (splitChar ',' s) [] m hp item hitem
      rw [hsp] at hsp'
      simp only [Option.some.injEq, Prod.mk.injEq] at hsp'
      rw [← hsp'.1, hkey] at hsub
      exact hch (substringB_singleton ch |>.mp hsub)
  · intro s item key rest hitem hsp hhex
    rcases hres : parse_custom_letter_colors (some s) with e | m
    · exact ⟨e, rfl⟩
    · exfalso
      obtain ⟨hp, _⟩ := parse_ok_inv s m hres
      obtain ⟨key', rest', hsp', -, cv, hcv⟩ :=
        parseColorItems_ok_items (splitChar ',' s) [] m hp item hitem
      rw [hsp] at hsp'
      simp only [Option.some.injEq, Prod.mk.injEq] at hsp'
      rw [← hsp'.2] at hcv
      exact hhex cv hcv

theorem parse_custom_letter_colors_spec_witness :
    (parse_custom_letter_colors
        (some "B:#1F77B4,I:#D62728,N:#2CA02C,G:#FFBF00,O:#9467BD".data) =
      Except.ok [(['B'], (31, 119, 180)), (['I'], (214, 39, 40)), (['N'], (44, 160, 44)),
        (['G'], (255, 191, 0)), (['O'], (148, 103, 189))]) ∧
    (∀ ch ∈ LETTERS, ∃ cv,
      dlookup [(['B'], ((31 : Nat), (119 : Nat), (180 : Nat))), (['I'], (214, 39, 40)),
        (['N'], (44, 160, 44)), (['G'], (255, 191, 0)), (['O'], (148, 103, 189))]
        [ch] = some cv) :=
  ⟨parse_custom_letter_colors_spec.1,
    parse_custom_letter_colors_spec.2.2.1 _ _ parse_custom_letter_colors_spec.1⟩
